import Mathlib

/-!
# Canvas extension testing: frame/message generator of `src/App.js`

A shallow embedding of the effect body of `App` (the message simulation state, the
message factory, the frame scheduler, the configuration provider and the rolling log)
as explicit state passing, followed by the properties of the specification.

Conventions of the embedding.

* JavaScript numbers that the program produces with `parseInt`, `Math.min`,
  `Math.floor` are modelled by `JSNumber`: `NaN`, an infinity or an integer (negative
  zero is identified with zero: the program only uses such values as a loop bound, an
  array index and a timer delay, where both zeros behave alike). `parseInt` rounds the
  integer it reads to the nearest double, ties to even, and gives an infinity beyond the
  range of doubles.
* `Math.random()` is a `Draw`: a fraction `num / den` with `num < den`, i.e. any value of
  `[0, 1)`, which includes every double of that range.
* The two timer delays `Math.random() * 10` and `12 + Math.random() * 4` are computed as
  the doubles they are: the exact value rounded to 53 significant bits, ties to even.
  The product inside `Math.floor` for the type index is taken exactly (the rounded
  product can reach the next integer, never the bound itself).
* Time is counted in whole milliseconds; a timer delay is truncated to an integer as the
  timer interface does with its `long` argument.
* The two counters `frameId` and `messageId` and the counter of the `for` loop are
  natural numbers (a double counts exactly up to `2 ^ 53`).
-/

namespace CanvasSim

/-! ## JavaScript primitives used by the program -/

/-- A JavaScript number as the program meets it: `NaN`, an integer, or an infinity
(`negative` tells which one). -/
inductive JSNumber where
  | nan : JSNumber
  | num (v : Int) : JSNumber
  | inf (negative : Bool) : JSNumber
deriving DecidableEq, Repr

/-- The integer nearest to `a / b`, the even one of the two when `a / b` lies halfway. -/
def roundHalfEven (a b : Nat) : Nat :=
  let q := a / b
  let r := a % b
  if 2 * r < b then q
  else if b < 2 * r then q + 1
  else if q % 2 = 0 then q else q + 1

/-- Number of binary digits of a natural number, counted with `fuel` halvings. -/
def bitLengthAux : Nat → Nat → Nat
  | 0, _ => 0
  | fuel + 1, n => if n = 0 then 0 else bitLengthAux fuel (n / 2) + 1

/-- Number of binary digits of a natural number. -/
def bitLength (n : Nat) : Nat := bitLengthAux n n

/-- The double nearest to a natural number, ties to even: the number itself below
`2 ^ 53`, otherwise its 53 leading binary digits rounded; `none` when the result is
beyond the largest double, which JavaScript turns into an infinity. -/
def toDouble (n : Nat) : Option Nat :=
  if n < 9007199254740992 then some n
  else
    let shift := bitLength n - 53
    let v := roundHalfEven n (2 ^ shift) * 2 ^ shift
    if v < 2 ^ 1024 then some v else none

/-- White space and line terminators that `parseInt` skips at the start of its input
(`StrWhiteSpaceChar`), by code point. -/
def isStrWhiteSpaceChar (c : Char) : Bool :=
  let n := c.toNat
  n == 9 || n == 10 || n == 11 || n == 12 || n == 13 || n == 32 || n == 160 ||
  n == 5760 || (8192 ≤ n && n ≤ 8202) || n == 8232 || n == 8233 || n == 8239 ||
  n == 8287 || n == 12288 || n == 65279

/-- Value of a character as a digit (`0-9`, `a-z`, `A-Z`), if it is one. -/
def digitValue (c : Char) : Option Nat :=
  let n := c.toNat
  if 48 ≤ n ∧ n ≤ 57 then some (n - 48)
  else if 97 ≤ n ∧ n ≤ 122 then some (n - 97 + 10)
  else if 65 ≤ n ∧ n ≤ 90 then some (n - 65 + 10)
  else none

/-- The longest run of radix digits at the start of the input, as digit values. -/
def leadingDigits (radix : Nat) : List Char → List Nat
  | [] => []
  | c :: cs =>
    match digitValue c with
    | some v => if v < radix then v :: leadingDigits radix cs else []
    | none => []

/-- The integer written by a list of digit values, most significant first. -/
def digitsToNat (radix : Nat) (ds : List Nat) : Nat :=
  ds.foldl (fun acc d => acc * radix + d) 0

/-- Sign of the input of `parseInt` and the input after the sign. -/
def splitSign (cs : List Char) : Bool × List Char :=
  match cs with
  | [] => (false, [])
  | c :: rest =>
    if c = '-' then (true, rest)
    else if c = '+' then (false, rest)
    else (false, c :: rest)

/-- Radix of the input of `parseInt` (no radix argument) and the input after a `0x`
or `0X` mark. -/
def splitRadix (cs : List Char) : Nat × List Char :=
  match cs with
  | c :: d :: rest =>
    if c = '0' ∧ (d = 'x' ∨ d = 'X') then (16, rest) else (10, c :: d :: rest)
  | other => (10, other)

/-- The digit run that `parseInt` reads: after leading white space, an optional sign
and an optional hexadecimal mark. -/
def parseIntDigits (s : String) : Bool × Nat × List Nat :=
  let trimmed := s.toList.dropWhile isStrWhiteSpaceChar
  let signed := splitSign trimmed
  let based := splitRadix signed.2
  (signed.1, based.1, leadingDigits based.1 based.2)

/-- `parseInt(string)` of JavaScript with no radix argument: `NaN` when no digit can be
read, otherwise the signed integer of the leading digit run as a double (the integer is
taken exactly before it is rounded; the language also allows an implementation to read
decimal digits after the 20th as zeros). -/
def parseInt (s : String) : JSNumber :=
  let parts := parseIntDigits s
  let z := parts.2.2
  if z = [] then JSNumber.nan
  else
    match toDouble (digitsToNat parts.2.1 z) with
    | some v => JSNumber.num (if parts.1 then -(v : Int) else (v : Int))
    | none => JSNumber.inf parts.1

/-- `Math.min(a, b)`: `NaN` as soon as an argument is `NaN`. -/
def jsMin : JSNumber → JSNumber → JSNumber
  | JSNumber.nan, _ => JSNumber.nan
  | _, JSNumber.nan => JSNumber.nan
  | JSNumber.num a, JSNumber.num b => JSNumber.num (min a b)
  | JSNumber.inf true, _ => JSNumber.inf true
  | _, JSNumber.inf true => JSNumber.inf true
  | JSNumber.inf false, b => b
  | a, JSNumber.inf false => a

/-- One value of `Math.random()`: the fraction `num / den` of `[0, 1)`. -/
structure Draw where
  num : Nat
  den : Nat
  lt : num < den

/-- `Math.floor(Math.random() * m)`; zero times an infinity is `NaN`. -/
def floorMul (r : Draw) : JSNumber → JSNumber
  | JSNumber.nan => JSNumber.nan
  | JSNumber.num m => JSNumber.num (Int.fdiv ((r.num : Int) * m) (r.den : Int))
  | JSNumber.inf negative => if r.num = 0 then JSNumber.nan else JSNumber.inf negative

/-- `Math.random() < 0.05`. -/
def Draw.below5Percent (r : Draw) : Bool := decide (r.num * 100 < 5 * r.den)

/-- `array[index]` for a number index: `undefined` (here `none`) unless the index is an
integer position of the array. -/
def jsIndex {α : Type} (xs : List α) : JSNumber → Option α
  | JSNumber.nan => none
  | JSNumber.num i => if 0 ≤ i then xs.get? i.toNat else none
  | JSNumber.inf _ => none

/-- `array.slice(start)` for an integer `start`: a negative start counts from the end. -/
def jsSlice {α : Type} (xs : List α) (start : Int) : List α :=
  let len : Int := (xs.length : Nat)
  let k : Int := if start < 0 then max (len + start) 0 else min start len
  xs.drop k.toNat

/-- `ToString` of a number, as it reads for an integer below `10 ^ 21` in absolute value
(a larger one is written with an exponent; the text is only shown in the status line). -/
def JSNumber.toJSString : JSNumber → String
  | JSNumber.nan => "NaN"
  | JSNumber.num v => toString v
  | JSNumber.inf false => "Infinity"
  | JSNumber.inf true => "-Infinity"

/-- The delay a timer really waits for a number argument: the argument converted to a
32-bit integer (`NaN` and the infinities give 0, a fraction is already truncated here),
negative delays raised to 0. -/
def timerDelay : JSNumber → Nat
  | JSNumber.nan => 0
  | JSNumber.num v => (((v + 2147483648) % 4294967296) - 2147483648).toNat
  | JSNumber.inf _ => 0

/-! ## Data model -/

/-- An entry of the message log (React state `logEntries`). -/
structure LogEntry where
  id : String
  className : String
  content : String
deriving DecidableEq, Repr

/-- The status line (React state `status`). -/
structure Status where
  text : String
  className : String
deriving DecidableEq, Repr

/-- A message envelope built by `generateMessage`. `type` is `none` when the program
emits `undefined` as the type; `duration` is the field added by `sendFrameEnd`;
`extraKeys` are the names of the other additional fields (their values play no role
in what follows). -/
structure Message where
  id : String
  type : Option String
  frameId : Nat
  timestamp : Nat
  receivedAt : Nat
  duration : Option Int
  extraKeys : List String
deriving DecidableEq, Repr

/-- The four configuration inputs: `none` when the ref holds no element, otherwise the
current text of the input. -/
structure ConfigInputs where
  frameInterval : Option String
  messagesPerFrame : Option String
  frameVariability : Option String
  messageDiversity : Option String
deriving DecidableEq, Repr

/-- The object returned by `getConfig`. -/
structure Config where
  frameInterval : JSNumber
  messagesPerFrame : JSNumber
  frameVariability : JSNumber
  messageDiversity : JSNumber
deriving DecidableEq, Repr

/-- What a callback reads from its surroundings when it runs: the configuration inputs,
`performance.now()`, `Date.now()` and `new Date().toLocaleTimeString()`. -/
structure Env where
  inputs : ConfigInputs
  now : Nat
  dateNow : Nat
  localeTime : String

/-- The closure handed to `setTimeout` by `sendSingleFrame`. -/
inductive Deferred where
  | randomMessage (frameId : Nat) : Deferred
  | frameEnd (frameId : Nat) (startTime : Nat) : Deferred
deriving DecidableEq, Repr

/-- The frame a deferred emission belongs to. -/
def Deferred.frameId : Deferred → Nat
  | Deferred.randomMessage k => k
  | Deferred.frameEnd k _ => k

/-- A pending one-shot timer. -/
structure Timeout where
  handle : Nat
  due : Nat
  action : Deferred
deriving DecidableEq, Repr

/-- An installed repeating timer: the delay argument it was created with and the time
of its next run. -/
structure Interval where
  handle : Nat
  period : JSNumber
  nextDue : Nat
deriving DecidableEq, Repr

/-- The simulation state of the effect (`isRunning`, `intervalId`, `frameId`,
`messageId`), the two pieces of React state, the timers of the host and the sequence of
messages emitted so far, oldest first. -/
structure State where
  isRunning : Bool
  intervalId : Option Nat
  frameId : Nat
  messageId : Nat
  status : Status
  logEntries : List LogEntry
  nextHandle : Nat
  intervals : List Interval
  timeouts : List Timeout
  sent : List Message
deriving DecidableEq, Repr

/-- The state when the effect starts: the declarations at the top of the effect, the
initial React state, no timer, nothing emitted. Timer handles are positive. -/
def State.init : State where
  isRunning := false
  intervalId := none
  frameId := 1
  messageId := 1
  status := { text := "Simulation Stopped", className := "status stopped" }
  logEntries := []
  nextHandle := 1
  intervals := []
  timeouts := []
  sent := []

/-! ## Configuration provider -/

/-- The function `getConfig`: each field is `parseInt(ref.current?.value ?? d)`; the
number `d` reaches `parseInt` as its decimal text. -/
def getConfig (inputs : ConfigInputs) : Config where
  frameInterval := parseInt (inputs.frameInterval.getD "500")
  messagesPerFrame := parseInt (inputs.messagesPerFrame.getD "10")
  frameVariability := parseInt (inputs.frameVariability.getD "50")
  messageDiversity := parseInt (inputs.messageDiversity.getD "8")

/-! ## Rolling log -/

/-- The entry that `clearLog` leaves in the log. -/
def clearedEntry : LogEntry where
  id := "cleared"
  className := "log-entry"
  content := "[Cleared] Message log cleared."

/-- The function `clearLog`: `setLogEntries([...])` with the single cleared entry. -/
def clearLog (st : State) : State :=
  { st with logEntries := [clearedEntry] }

/-- The updater given to `setLogEntries` by `logMessage`:
`[...prevEntries, entry].slice(-100)`. -/
def appendEntry (prevEntries : List LogEntry) (entry : LogEntry) : List LogEntry :=
  let newEntries := prevEntries ++ [entry]
  jsSlice newEntries (-100)

/-- The text of a message type inside a template literal. -/
def typeText : Option String → String
  | some t => t
  | none => "undefined"

/-- The entry that `logMessage` builds for a message. A duration is a whole number of
milliseconds here, so `toFixed(2)` writes it with `.00`; a zero or missing duration and a
zero frame id are falsy and print nothing. -/
def logEntryOf (env : Env) (message : Message) : LogEntry :=
  let className :=
    if message.type = some "canvas-frame-start" then "log-entry" ++ " frame-start"
    else if message.type = some "canvas-frame-end" then "log-entry" ++ " frame-end"
    else "log-entry" ++ " message"
  let frameInfo := if message.frameId ≠ 0 then " Frame " ++ toString message.frameId else ""
  let durationText :=
    match message.duration with
    | some d => if d ≠ 0 then " (" ++ toString d ++ ".00ms)" else ""
    | none => ""
  { id := message.id
    className := className
    content := "[" ++ env.localeTime ++ "] " ++ typeText message.type ++ frameInfo ++
      " - ID: " ++ message.id ++ durationText }

/-- The function `logMessage`. -/
def logMessage (st : State) (env : Env) (message : Message) : State :=
  { st with logEntries := appendEntry st.logEntries (logEntryOf env message) }

/-! ## Message factory -/

/-- The constant `messageTypes`. -/
def messageTypes : List String :=
  [ "ecs-component-update", "ecs-entity-created", "ecs-entity-destroyed",
    "ecs-system-update", "render-update", "input-event", "camera-update",
    "selection-change", "tool-change", "collaboration-event", "layout-update",
    "animation-frame", "texture-update", "shader-update", "performance-metric" ]

/-- The text of the id that `generateMessage` gives for a counter value. -/
def messageIdText (k : Nat) : String := "msg-" ++ toString k

/-- The function `generateMessage`: the id is built from the current `messageId`, which
is then incremented. -/
def generateMessage (st : State) (env : Env) (type : Option String) (frameId : Nat)
    (duration : Option Int) (extraKeys : List String) : Message × State :=
  let message : Message :=
    { id := messageIdText st.messageId
      type := type
      frameId := frameId
      timestamp := env.now
      receivedAt := env.dateNow
      duration := duration
      extraKeys := extraKeys }
  (message, { st with messageId := st.messageId + 1 })

/-- Delivery to the bridge and to the log, the three lines that end every `send`
function. -/
def deliver (st : State) (env : Env) (message : Message) : State :=
  logMessage { st with sent := st.sent ++ [message] } env message

/-- The function `sendFrameStart`. -/
def sendFrameStart (st : State) (env : Env) (frameId : Nat) : Message × State :=
  let r := generateMessage st env (some "canvas-frame-start") frameId none
    ["sessionId", "renderMode", "viewport"]
  (r.1, deliver r.2 env r.1)

/-- The function `sendFrameEnd`. -/
def sendFrameEnd (st : State) (env : Env) (frameId : Nat) (startTime : Nat) :
    Message × State :=
  let endTime := env.now
  let r := generateMessage st env (some "canvas-frame-end") frameId
    (some ((endTime : Int) - (startTime : Int))) ["renderTime", "entityCount"]
  (r.1, deliver r.2 env r.1)

/-- The names of the additional fields chosen by the `switch` of `sendRandomMessage`. -/
def additionalKeys (type : Option String) : List String :=
  if type = some "ecs-component-update" then ["entityId", "componentType", "componentData"]
  else if type = some "ecs-entity-created" then ["entityId", "components"]
  else if type = some "render-update" then ["drawCalls", "triangles", "bufferUpdates"]
  else if type = some "input-event" then ["eventType", "coordinates", "button"]
  else if type = some "performance-metric" then ["fps", "frameTime", "memoryUsage"]
  else ["data", "value"]

/-- The type index computed by `sendRandomMessage`:
`Math.floor(Math.random() * Math.min(config.messageDiversity, messageTypes.length))`. -/
def typeIndex (config : Config) (r : Draw) : JSNumber :=
  floorMul r (jsMin config.messageDiversity (JSNumber.num (messageTypes.length : Nat)))

/-- The type chosen by `sendRandomMessage`: `messageTypes[typeIndex]`. -/
def chosenType (inputs : ConfigInputs) (r : Draw) : Option String :=
  jsIndex messageTypes (typeIndex (getConfig inputs) r)

/-- The function `sendRandomMessage`. -/
def sendRandomMessage (st : State) (env : Env) (r : Draw) (frameId : Nat) :
    Message × State :=
  let type := chosenType env.inputs r
  let g := generateMessage st env type frameId none (additionalKeys type)
  (g.1, deliver g.2 env g.1)

/-! ## Frame scheduler -/

/-- The call `setTimeout(closure, delay)`. -/
def setTimeout (st : State) (env : Env) (action : Deferred) (delay : Nat) : State :=
  { st with
    nextHandle := st.nextHandle + 1
    timeouts := st.timeouts ++ [{ handle := st.nextHandle, due := env.now + delay, action := action }] }

/-- The draws of one run of the interval callback: one per iteration of the loop, one for
the frame end, one for the skip test. -/
structure TickDraws where
  messageDelay : Nat → Draw
  endDelay : Draw
  skip : Draw

/-- How many times the body of `for (let i = 0; i < bound; i++)` runs; `none` when the
loop never ends, which is the case of the bound `Infinity`. -/
def iterations : JSNumber → Option Nat
  | JSNumber.nan => some 0
  | JSNumber.num v => some v.toNat
  | JSNumber.inf true => some 0
  | JSNumber.inf false => none

/-- The binary digits after the point that a double keeps at the place of `a / b`, for
`a / b < 16`: 49 from 8 on, 50 from 4 on, 51 from 2 on, 52 from 1 on, 53 below (below
one half a double keeps more, which changes nothing to its integer part). -/
def fractionBits (a b : Nat) : Nat :=
  if 8 * b ≤ a then 49
  else if 4 * b ≤ a then 50
  else if 2 * b ≤ a then 51
  else if b ≤ a then 52
  else 53

/-- The delay `Math.random() * 10` as the timer takes it: the product rounded to a
double, then truncated to an integer. -/
def messageDelayMs (r : Draw) : Nat :=
  let k := fractionBits (10 * r.num) r.den
  roundHalfEven (10 * r.num * 2 ^ k) r.den / 2 ^ k

/-- The delay `12 + Math.random() * 4` as the timer takes it: the product by 4 is exact,
the sum lies between 12 and 16 and is rounded to a double, which keeps 49 binary digits
after the point there, then truncated to an integer. -/
def endDelayMs (r : Draw) : Nat :=
  roundHalfEven ((12 * r.den + 4 * r.num) * 2 ^ 49) r.den / 2 ^ 49

/-- The function `sendSingleFrame`. When the loop never ends the function never returns
and nothing runs after it; the state kept for that case is the one the function had
reached before the loop, with the frame start emitted. -/
def sendSingleFrame (st : State) (env : Env) (draws : TickDraws) : State :=
  let config := getConfig env.inputs
  let currentFrameId := st.frameId
  let st1 := { st with frameId := st.frameId + 1 }
  let started := sendFrameStart st1 env currentFrameId
  let startTime := started.1.timestamp
  match iterations config.messagesPerFrame with
  | none => started.2
  | some n =>
    let st2 := (List.range n).foldl
      (fun s i => setTimeout s env (Deferred.randomMessage currentFrameId)
        (messageDelayMs (draws.messageDelay i))) started.2
    setTimeout st2 env (Deferred.frameEnd currentFrameId startTime)
      (endDelayMs draws.endDelay)

/-- The callback given to `setInterval`: `sendSingleFrame()`, then the skip test, both
branches of which return. -/
def intervalCallback (st : State) (env : Env) (draws : TickDraws) : State :=
  let st1 := sendSingleFrame st env draws
  if draws.skip.below5Percent then st1 else st1

/-- The function `updateStatus`. -/
def updateStatus (st : State) (inputs : ConfigInputs) : State :=
  if st.isRunning then
    { st with status :=
        { text := "Simulation Running - Sending frames every " ++
            (getConfig inputs).frameInterval.toJSString ++ "ms"
          className := "status running" } }
  else
    { st with status := { text := "Simulation Stopped", className := "status stopped" } }

/-- The function `startSimulation`. -/
def startSimulation (st : State) (env : Env) : State :=
  if st.isRunning then st
  else
    let st1 := updateStatus { st with isRunning := true } env.inputs
    let config := getConfig env.inputs
    { st1 with
      intervalId := some st1.nextHandle
      nextHandle := st1.nextHandle + 1
      intervals := st1.intervals ++
        [{ handle := st1.nextHandle, period := config.frameInterval,
           nextDue := env.now + timerDelay config.frameInterval }] }

/-- The call `clearInterval(handle)`. -/
def clearInterval (st : State) (handle : Nat) : State :=
  { st with intervals := st.intervals.filter (fun iv => iv.handle ≠ handle) }

/-- The function `stopSimulation`; a handle is truthy when it is not zero. -/
def stopSimulation (st : State) (inputs : ConfigInputs) : State :=
  if !st.isRunning then st
  else
    let st1 := { st with isRunning := false }
    let st2 :=
      match st1.intervalId with
      | some h => if h ≠ 0 then { clearInterval st1 h with intervalId := none } else st1
      | none => st1
    updateStatus st2 inputs

/-- A repeating timer runs its callback and is armed again (after a callback that never
returns nothing runs any more, so the state kept for that case is never used by the
program). -/
def fireInterval (st : State) (handle : Nat) (env : Env) (draws : TickDraws) : State :=
  match st.intervals.find? (fun iv => iv.handle = handle) with
  | none => st
  | some _ =>
    let st1 := intervalCallback st env draws
    { st1 with intervals := st1.intervals.map (fun iv =>
        if iv.handle = handle then { iv with nextDue := env.now + timerDelay iv.period }
        else iv) }

/-- A pending one-shot timer is removed and runs its closure. -/
def fireTimeout (st : State) (i : Nat) (env : Env) (r : Draw) : State :=
  match st.timeouts.get? i with
  | none => st
  | some tm =>
    let st1 := { st with timeouts := st.timeouts.eraseIdx i }
    match tm.action with
    | Deferred.randomMessage k => (sendRandomMessage st1 env r k).2
    | Deferred.frameEnd k startTime => (sendFrameEnd st1 env k startTime).2

/-- What can happen to the component after the effect has set up its state: the two
lifecycle calls, the clear button, a run of the repeating timer, a run of a pending
one-shot timer. -/
inductive Event where
  | start (env : Env) : Event
  | stop (inputs : ConfigInputs) : Event
  | clear : Event
  | tick (handle : Nat) (env : Env) (draws : TickDraws) : Event
  | timeout (i : Nat) (env : Env) (r : Draw) : Event

/-- One event. -/
def step (st : State) : Event → State
  | Event.start env => startSimulation st env
  | Event.stop inputs => stopSimulation st inputs
  | Event.clear => clearLog st
  | Event.tick h env draws => fireInterval st h env draws
  | Event.timeout i env r => fireTimeout st i env r

/-- A sequence of events from a state. -/
def run (st : State) (events : List Event) : State :=
  events.foldl step st

/-- The frame ids of the emitted messages, in emission order. -/
def sentFrameIds (st : State) : List Nat := st.sent.map (fun m => m.frameId)

/-- The ids of the emitted messages, in emission order. -/
def sentIds (st : State) : List String := st.sent.map (fun m => m.id)

/-- An action on the rolling log alone: an append or a clear. -/
inductive LogAction where
  | append (entry : LogEntry) : LogAction
  | clear : LogAction

/-- The log after an action, as `logMessage` and `clearLog` change it. -/
def applyLogAction (log : List LogEntry) : LogAction → List LogEntry
  | LogAction.append entry => appendEntry log entry
  | LogAction.clear => [clearedEntry]

/-- The relation between the run flag, the variable `intervalId` and the repeating
timers of the host that the lifecycle functions maintain. -/
def TimerInv (st : State) : Prop :=
  st.intervals.map (fun iv => iv.handle) = st.intervalId.toList ∧
  st.isRunning = st.intervalId.isSome ∧
  (∀ h, st.intervalId = some h → h ≠ 0) ∧
  1 ≤ st.nextHandle

/-- The number read back from decimal digit characters, most significant first. -/
def decimalValue (cs : List Char) : Nat :=
  cs.foldl (fun a c => 10 * a + (c.toNat - 48)) 0

/-- A message is a frame start. -/
def Message.isFrameStart (m : Message) : Bool :=
  decide (m.type = some "canvas-frame-start")

/-- The frame starts among the emitted messages, in emission order. -/
def sentFrameStarts (st : State) : List Message :=
  st.sent.filter Message.isFrameStart

/-- A step that emits nothing and leaves the counters and the pending timers alone. -/
def Quiet (st st' : State) : Prop :=
  st'.sent = st.sent ∧ st'.messageId = st.messageId ∧ st'.frameId = st.frameId ∧
  st'.timeouts = st.timeouts

/-- A step that is a run of the interval callback. -/
def Ticked (st st' : State) : Prop :=
  ∃ (m : Message) (added : List Timeout),
    st'.sent = st.sent ++ [m] ∧ m.type = some "canvas-frame-start" ∧
    m.frameId = st.frameId ∧ m.id = messageIdText st.messageId ∧
    st'.timeouts = st.timeouts ++ added ∧
    (∀ tm ∈ added, tm.action.frameId = st.frameId) ∧
    st'.frameId = st.frameId + 1 ∧ st'.messageId = st.messageId + 1

/-- A step that is a run of a pending one-shot timer. -/
def Fired (st st' : State) : Prop :=
  ∃ (m : Message) (i : Nat) (tm : Timeout),
    st.timeouts.get? i = some tm ∧
    st'.sent = st.sent ++ [m] ∧ m.type ≠ some "canvas-frame-start" ∧
    m.frameId = tm.action.frameId ∧ m.id = messageIdText st.messageId ∧
    st'.timeouts = st.timeouts.eraseIdx i ∧
    st'.frameId = st.frameId ∧ st'.messageId = st.messageId + 1

/-- The ids emitted so far are those of the counter values `1, 2, ...` in order, and the
counter is one past their number. -/
def IdInv (st : State) : Prop :=
  sentIds st = (List.range' 1 st.sent.length).map messageIdText ∧
  st.messageId = st.sent.length + 1

/-- Every message that is not a frame start comes after the frame start of its frame. -/
def Bracketed (l : List Message) : Prop :=
  ∀ (j : Nat) (m : Message), l[j]? = some m → m.type ≠ some "canvas-frame-start" →
    ∃ (i : Nat) (s : Message), i < j ∧ l[i]? = some s ∧
      s.type = some "canvas-frame-start" ∧ s.frameId = m.frameId

/-- The frame starts emitted so far carry the frame ids `1, 2, ...` in order up to the
counter, every pending timer belongs to a frame already started, and every other
emitted message follows the start of its frame. -/
def FrameInv (st : State) : Prop :=
  1 ≤ st.frameId ∧
  (sentFrameStarts st).map (fun m => m.frameId) = List.range' 1 (st.frameId - 1) ∧
  (∀ tm ∈ st.timeouts, ∃ s ∈ st.sent,
    s.type = some "canvas-frame-start" ∧ s.frameId = tm.action.frameId) ∧
  Bracketed st.sent

/-- Sample surroundings of a callback: the four inputs hold the given texts. -/
def sampleEnv (frameInterval messagesPerFrame messageDiversity : String) (now : Nat) : Env where
  inputs := ⟨some frameInterval, some messagesPerFrame, some "50", some messageDiversity⟩
  now := now
  dateNow := 1700000000000 + now
  localeTime := "12:00:00"

/-- Sample draws of a tick: every message delay is `0.8 * 10`, the frame end waits 12 ms,
the skip draw is 0. -/
def sampleDraws : TickDraws where
  messageDelay := fun _ => ⟨8, 10, by decide⟩
  endDelay := ⟨0, 1, by decide⟩
  skip := ⟨0, 1, by decide⟩

/-! ## Timed runs -/

/-- The clock reading that an event carries, if it reads the clock. -/
def Event.now : Event → Option Nat
  | Event.start env => some env.now
  | Event.stop _ => none
  | Event.clear => none
  | Event.tick _ env _ => some env.now
  | Event.timeout _ env _ => some env.now

/-- The event is a call of `stopSimulation`. -/
def Event.isStop : Event → Bool
  | Event.stop _ => true
  | _ => false

/-- Timers run in due order: a timer that runs is installed, runs no earlier than it is
due, and no other timer is due strictly before it. Other events are not constrained. -/
def dueOrder (st : State) : Event → Bool
  | Event.tick h env _ =>
    match st.intervals.find? (fun iv => iv.handle = h) with
    | none => false
    | some iv =>
      decide (iv.nextDue ≤ env.now) &&
      st.timeouts.all (fun tm => decide (iv.nextDue ≤ tm.due)) &&
      st.intervals.all (fun o => decide (iv.nextDue ≤ o.nextDue))
  | Event.timeout i env _ =>
    match st.timeouts.get? i with
    | none => false
    | some tm =>
      decide (tm.due ≤ env.now) &&
      st.timeouts.all (fun o => decide (tm.due ≤ o.due)) &&
      st.intervals.all (fun iv => decide (tm.due ≤ iv.nextDue))
  | _ => true

/-- A run in which the clock never goes back and timers run in due order. -/
def timedRun (clock : Nat) (st : State) : List Event → Bool
  | [] => true
  | e :: es =>
    decide (clock ≤ e.now.getD clock) && dueOrder st e &&
      timedRun (e.now.getD clock) (step st e) es

/-- Every call of `startSimulation` in the run reads a frame interval that makes the
repeating timer wait at least 17 ms, more than the longest deferred delay of 16 ms. -/
def startsAtLeast17 (events : List Event) : Bool :=
  events.all (fun e =>
    match e with
    | Event.start env => decide (17 ≤ timerDelay (getConfig env.inputs).frameInterval)
    | _ => true)

/-- State of a timed run in which the deferred emissions of a frame all run before the
next tick. -/
def SortedInv (clock : Nat) (st : State) : Prop :=
  (sentFrameIds st).Pairwise (fun a b => a ≤ b) ∧
  (∀ m ∈ st.sent, m.frameId < st.frameId) ∧
  (∀ tm ∈ st.timeouts, tm.action.frameId + 1 = st.frameId) ∧
  (∃ T : Nat, T ≤ clock ∧ (∀ tm ∈ st.timeouts, tm.due < T + 17) ∧
    (∀ iv ∈ st.intervals, T + 17 ≤ iv.nextDue)) ∧
  (∀ iv ∈ st.intervals, 17 ≤ timerDelay iv.period) ∧
  TimerInv st

/-- A run with a frame interval of 5 ms: start, two ticks, then the first deferred
message of frame 1, which was due 8 ms after the first tick. -/
def shortIntervalRun : List Event :=
  [ Event.start (sampleEnv "5" "1" "8" 0),
    Event.tick 1 (sampleEnv "5" "1" "8" 5) sampleDraws,
    Event.tick 1 (sampleEnv "5" "1" "8" 10) sampleDraws,
    Event.timeout 0 (sampleEnv "5" "1" "8" 13) ⟨1, 2, by decide⟩ ]

/-- A run with the default frame interval of 500 ms: start, a tick, its deferred message
and frame end, the next tick. -/
def defaultIntervalRun : List Event :=
  [ Event.start (sampleEnv "500" "1" "8" 0),
    Event.tick 1 (sampleEnv "500" "1" "8" 500) sampleDraws,
    Event.timeout 0 (sampleEnv "500" "1" "8" 508) ⟨1, 2, by decide⟩,
    Event.timeout 0 (sampleEnv "500" "1" "8" 512) ⟨1, 2, by decide⟩,
    Event.tick 1 (sampleEnv "500" "1" "8" 1000) sampleDraws ]

/-- The scheduler is running and its repeating timer has the delay argument `p`. -/
def PeriodInv (p : JSNumber) (st : State) : Prop :=
  st.isRunning = true ∧ st.intervals.map (fun iv => iv.period) = [p]

/-- The largest double below 1, as a draw. -/
def largestDraw : Draw := ⟨9007199254740991, 9007199254740992, by decide⟩

/-- A run with a frame interval of 16 ms and no messages per frame, in which the frame
end of frame 1 waits the longest delay, 16 ms: it is due at the very time of the second
tick, which runs first. -/
def sixteenIntervalRun : List Event :=
  [ Event.start (sampleEnv "16" "0" "8" 0),
    Event.tick 1 (sampleEnv "16" "0" "8" 16) { sampleDraws with endDelay := largestDraw },
    Event.tick 1 (sampleEnv "16" "0" "8" 32) sampleDraws,
    Event.timeout 0 (sampleEnv "16" "0" "8" 32) ⟨1, 2, by decide⟩ ]

/-! # Properties -/

/-! ## Rolling log: lemmas -/

theorem jsSlice_neg100 {α : Type} (xs : List α) :
    jsSlice xs (-100) = xs.drop (xs.length - 100) := by
  unfold jsSlice
  simp only [show ((-100 : Int) < 0) from by decide, if_true]
  congr 1
  omega

theorem appendEntry_eq (L : List LogEntry) (E : LogEntry) :
    appendEntry L E = (L ++ [E]).drop (L.length + 1 - 100) := by
  unfold appendEntry
  simp only [jsSlice_neg100, List.length_append, List.length_singleton]

theorem appendEntry_eq_drop (L : List LogEntry) (E : LogEntry) :
    appendEntry L E = L.drop (L.length - 99) ++ [E] := by
  rw [appendEntry_eq]
  have h : L.length + 1 - 100 = L.length - 99 := by omega
  rw [h, List.drop_append_of_le_length (by omega)]

theorem appendEntry_length (L : List LogEntry) (E : LogEntry) :
    (appendEntry L E).length = min (L.length + 1) 100 := by
  rw [appendEntry_eq]
  simp only [List.length_drop, List.length_append, List.length_singleton]
  omega

theorem applyLogAction_length_le (log : List LogEntry) (a : LogAction)
    (h : log.length ≤ 100) : (applyLogAction log a).length ≤ 100 := by
  cases a with
  | append entry => simp only [applyLogAction, appendEntry_length]; omega
  | clear => simp [applyLogAction]

theorem foldl_applyLogAction_length_le (actions : List LogAction) :
    ∀ log : List LogEntry, log.length ≤ 100 →
      (actions.foldl applyLogAction log).length ≤ 100 := by
  induction actions with
  | nil => intro log h; simpa using h
  | cons a rest ih =>
    intro log h
    exact ih _ (applyLogAction_length_le log a h)

/-! ## Effect of the operations on the state -/

theorem roundHalfEven_le (a b : Nat) : roundHalfEven a b ≤ a / b + 1 := by
  unfold roundHalfEven
  simp only
  split
  · omega
  · split
    · omega
    · split <;> omega

theorem roundHalfEven_ge (a b : Nat) : a / b ≤ roundHalfEven a b := by
  unfold roundHalfEven
  simp only
  split
  · omega
  · split
    · omega
    · split <;> omega

/-- A value below `n` rounded on a grid of `2 ^ k` steps per unit has its integer part at
most `n`. -/
theorem rounded_floor_le (a b k n : Nat) (hb : 0 < b) (h : a < n * b) :
    roundHalfEven (a * 2 ^ k) b / 2 ^ k ≤ n := by
  have hk : 0 < 2 ^ k := Nat.two_pow_pos _
  have h1 : a * 2 ^ k < n * 2 ^ k * b := by
    have : a * 2 ^ k < n * b * 2 ^ k := Nat.mul_lt_mul_of_pos_right h hk
    calc a * 2 ^ k < n * b * 2 ^ k := this
      _ = n * 2 ^ k * b := by ring
  have h2 : a * 2 ^ k / b < n * 2 ^ k := (Nat.div_lt_iff_lt_mul hb).2 h1
  have h3 := roundHalfEven_le (a * 2 ^ k) b
  have h4 : roundHalfEven (a * 2 ^ k) b ≤ n * 2 ^ k := by omega
  calc roundHalfEven (a * 2 ^ k) b / 2 ^ k ≤ n * 2 ^ k / 2 ^ k := Nat.div_le_div_right h4
    _ = n := Nat.mul_div_cancel n hk

theorem messageDelayMs_le (r : Draw) : messageDelayMs r ≤ 10 := by
  unfold messageDelayMs
  have h := r.lt
  have hd : 0 < r.den := by omega
  exact rounded_floor_le (10 * r.num) r.den _ 10 hd (by omega)

theorem endDelayMs_le (r : Draw) : endDelayMs r ≤ 16 := by
  unfold endDelayMs
  have h := r.lt
  have hd : 0 < r.den := by omega
  exact rounded_floor_le (12 * r.den + 4 * r.num) r.den 49 16 hd (by omega)

theorem endDelayMs_ge (r : Draw) : 12 ≤ endDelayMs r := by
  unfold endDelayMs
  have h := r.lt
  have hd : 0 < r.den := by omega
  have h1 := roundHalfEven_ge ((12 * r.den + 4 * r.num) * 2 ^ 49) r.den
  have h2 : 12 * 2 ^ 49 ≤ (12 * r.den + 4 * r.num) * 2 ^ 49 / r.den := by
    rw [Nat.le_div_iff_mul_le hd]
    have : 12 * 2 ^ 49 * r.den = 12 * r.den * 2 ^ 49 := by ring
    rw [this]
    exact Nat.mul_le_mul_right _ (by omega)
  have h3 : 12 * 2 ^ 49 ≤ roundHalfEven ((12 * r.den + 4 * r.num) * 2 ^ 49) r.den :=
    le_trans h2 h1
  rw [Nat.le_div_iff_mul_le (Nat.two_pow_pos _)]
  exact h3

theorem setTimeout_sent (s : State) (env : Env) (a : Deferred) (d : Nat) :
    (setTimeout s env a d).sent = s.sent := rfl

theorem setTimeout_timeouts (s : State) (env : Env) (a : Deferred) (d : Nat) :
    (setTimeout s env a d).timeouts =
      s.timeouts ++ [{ handle := s.nextHandle, due := env.now + d, action := a }] := rfl

theorem setTimeout_nextHandle (s : State) (env : Env) (a : Deferred) (d : Nat) :
    (setTimeout s env a d).nextHandle = s.nextHandle + 1 := rfl

theorem setTimeout_frameId (s : State) (env : Env) (a : Deferred) (d : Nat) :
    (setTimeout s env a d).frameId = s.frameId := rfl

theorem setTimeout_messageId (s : State) (env : Env) (a : Deferred) (d : Nat) :
    (setTimeout s env a d).messageId = s.messageId := rfl

theorem setTimeout_isRunning (s : State) (env : Env) (a : Deferred) (d : Nat) :
    (setTimeout s env a d).isRunning = s.isRunning := rfl

theorem setTimeout_intervalId (s : State) (env : Env) (a : Deferred) (d : Nat) :
    (setTimeout s env a d).intervalId = s.intervalId := rfl

theorem setTimeout_intervals (s : State) (env : Env) (a : Deferred) (d : Nat) :
    (setTimeout s env a d).intervals = s.intervals := rfl

theorem setTimeout_status (s : State) (env : Env) (a : Deferred) (d : Nat) :
    (setTimeout s env a d).status = s.status := rfl

theorem setTimeout_logEntries (s : State) (env : Env) (a : Deferred) (d : Nat) :
    (setTimeout s env a d).logEntries = s.logEntries := rfl

/-- The timers that the loop of `sendSingleFrame` adds, and what it leaves alone. -/
theorem scheduleLoop_spec (env : Env) (k : Nat) (f : Nat → Nat) (l : List Nat) :
    ∀ s : State, ∃ added : List Timeout,
      let s' := l.foldl (fun s i => setTimeout s env (Deferred.randomMessage k) (f i)) s
      s'.timeouts = s.timeouts ++ added ∧
      added.map (fun tm => tm.action) = List.replicate l.length (Deferred.randomMessage k) ∧
      (∀ tm ∈ added, ∃ i ∈ l, tm.due = env.now + f i) ∧
      s'.nextHandle = s.nextHandle + l.length ∧
      s'.isRunning = s.isRunning ∧ s'.intervalId = s.intervalId ∧
      s'.frameId = s.frameId ∧ s'.messageId = s.messageId ∧ s'.status = s.status ∧
      s'.logEntries = s.logEntries ∧ s'.intervals = s.intervals ∧ s'.sent = s.sent := by
  induction l with
  | nil =>
    intro s
    exact ⟨[], by simp⟩
  | cons i rest ih =>
    intro s
    obtain ⟨added, h1, h2, h3, h4, h5, h6, h7, h8, h9, h10, h11, h12⟩ :=
      ih (setTimeout s env (Deferred.randomMessage k) (f i))
    refine ⟨{ handle := s.nextHandle, due := env.now + f i,
              action := Deferred.randomMessage k } :: added, ?_⟩
    simp only [List.foldl_cons]
    refine ⟨?_, ?_, ?_, ?_, ?_, ?_, ?_, ?_, ?_, ?_, ?_, ?_⟩
    · rw [h1]; simp [setTimeout]
    · simp [h2, List.replicate_succ]
    · intro tm htm
      rcases List.mem_cons.1 htm with h | h
      · exact ⟨i, List.mem_cons_self _ _, by rw [h]⟩
      · obtain ⟨j, hj, hd⟩ := h3 tm h
        exact ⟨j, List.mem_cons_of_mem _ hj, hd⟩
    · rw [h4]; simp [setTimeout]; omega
    · rw [h5]; rfl
    · rw [h6]; rfl
    · rw [h7]; rfl
    · rw [h8]; rfl
    · rw [h9]; rfl
    · rw [h10]; rfl
    · rw [h11]; rfl
    · rw [h12]; rfl

theorem added_frameId (added : List Timeout) (n k t : Nat)
    (h : added.map (fun tm => tm.action) =
      List.replicate n (Deferred.randomMessage k) ++ [Deferred.frameEnd k t]) :
    ∀ tm ∈ added, tm.action.frameId = k := by
  intro tm htm
  have hm : tm.action ∈ added.map (fun tm => tm.action) := List.mem_map_of_mem _ htm
  rw [h] at hm
  rcases List.mem_append.1 hm with h1 | h1
  · rw [(List.mem_replicate.1 h1).2]; rfl
  · rw [List.mem_singleton.1 h1]; rfl

theorem sendSingleFrame_some (st : State) (env : Env) (draws : TickDraws) (n : Nat)
    (hn : iterations (getConfig env.inputs).messagesPerFrame = some n) :
    sendSingleFrame st env draws =
      setTimeout
        ((List.range n).foldl
          (fun s i => setTimeout s env (Deferred.randomMessage st.frameId)
            (messageDelayMs (draws.messageDelay i)))
          (sendFrameStart { st with frameId := st.frameId + 1 } env st.frameId).2)
        env (Deferred.frameEnd st.frameId env.now) (endDelayMs draws.endDelay) := by
  unfold sendSingleFrame
  simp only [hn]
  rfl

theorem sendSingleFrame_none (st : State) (env : Env) (draws : TickDraws)
    (hn : iterations (getConfig env.inputs).messagesPerFrame = none) :
    sendSingleFrame st env draws =
      (sendFrameStart { st with frameId := st.frameId + 1 } env st.frameId).2 := by
  unfold sendSingleFrame
  simp only [hn]

/-- What one run of `sendSingleFrame` does to the state. -/
theorem sendSingleFrame_spec (st : State) (env : Env) (draws : TickDraws) :
    ∃ (m : Message) (added : List Timeout),
      (sendSingleFrame st env draws).sent = st.sent ++ [m] ∧
      m.type = some "canvas-frame-start" ∧ m.frameId = st.frameId ∧
      m.id = messageIdText st.messageId ∧
      (sendSingleFrame st env draws).timeouts = st.timeouts ++ added ∧
      ((∀ n : Nat, iterations (getConfig env.inputs).messagesPerFrame = some n →
          added.map (fun tm => tm.action) =
            List.replicate n (Deferred.randomMessage st.frameId) ++
              [Deferred.frameEnd st.frameId env.now]) ∧
        (∀ tm ∈ added, tm.action.frameId = st.frameId)) ∧
      (∀ tm ∈ added, tm.due < env.now + 17) ∧
      (sendSingleFrame st env draws).frameId = st.frameId + 1 ∧
      (sendSingleFrame st env draws).messageId = st.messageId + 1 ∧
      (sendSingleFrame st env draws).isRunning = st.isRunning ∧
      (sendSingleFrame st env draws).intervalId = st.intervalId ∧
      (sendSingleFrame st env draws).intervals = st.intervals ∧
      (sendSingleFrame st env draws).status = st.status ∧
      (sendSingleFrame st env draws).logEntries =
        appendEntry st.logEntries (logEntryOf env m) ∧
      st.nextHandle ≤ (sendSingleFrame st env draws).nextHandle ∧
      m.timestamp = env.now := by
  cases hit : iterations (getConfig env.inputs).messagesPerFrame with
  | none =>
    rw [sendSingleFrame_none st env draws hit]
    refine ⟨(sendFrameStart { st with frameId := st.frameId + 1 } env st.frameId).1, [],
      rfl, rfl, rfl, rfl, ?_, ⟨?_, ?_⟩, ?_, rfl, rfl, rfl, rfl, rfl, rfl, rfl,
      Nat.le_refl _, rfl⟩
    · rw [List.append_nil]; rfl
    · intro n hn; cases hn
    · intro tm htm; cases htm
    · intro tm htm; cases htm
  | some n =>
    obtain ⟨added, h1, h2, h3, h4, h5, h6, h7, h8, h9, h10, h11, h12⟩ :=
      scheduleLoop_spec env st.frameId (fun i => messageDelayMs (draws.messageDelay i))
        (List.range n)
        (sendFrameStart { st with frameId := st.frameId + 1 } env st.frameId).2
    have hmap : (added ++ [Timeout.mk (st.nextHandle + (List.range n).length)
                (env.now + endDelayMs draws.endDelay)
                (Deferred.frameEnd st.frameId env.now)]).map
          (fun tm => tm.action) =
        List.replicate n (Deferred.randomMessage st.frameId) ++
          [Deferred.frameEnd st.frameId env.now] := by
      simp [h2]
    refine ⟨(sendFrameStart { st with frameId := st.frameId + 1 } env st.frameId).1,
      added ++ [{ handle := st.nextHandle + (List.range n).length,
                  due := env.now + endDelayMs draws.endDelay,
                  action := Deferred.frameEnd st.frameId env.now }], ?_⟩
    rw [sendSingleFrame_some st env draws n hit]
    refine ⟨?_, rfl, rfl, rfl, ?_, ⟨?_, ?_⟩, ?_, ?_, ?_, ?_, ?_, ?_, ?_, ?_, ?_, rfl⟩
    · rw [setTimeout_sent, h12]; rfl
    · rw [setTimeout_timeouts, h1, h4, List.append_assoc]; rfl
    · intro n2 hn2
      cases hn2
      exact hmap
    · exact added_frameId _ _ _ _ hmap
    · intro tm htm
      rcases List.mem_append.1 htm with h | h
      · obtain ⟨i, _, hd⟩ := h3 tm h
        have := messageDelayMs_le (draws.messageDelay i)
        rw [hd]; omega
      · simp only [List.mem_singleton] at h
        have := endDelayMs_le draws.endDelay
        rw [h]; simp only; omega
    · rw [setTimeout_frameId, h7]; rfl
    · rw [setTimeout_messageId, h8]; rfl
    · rw [setTimeout_isRunning, h5]; rfl
    · rw [setTimeout_intervalId, h6]; rfl
    · rw [setTimeout_intervals, h11]; rfl
    · rw [setTimeout_status, h9]; rfl
    · rw [setTimeout_logEntries, h10]; rfl
    · rw [setTimeout_nextHandle, h4]
      show st.nextHandle ≤ st.nextHandle + _ + 1
      omega

theorem jsIndex_mem {α : Type} (xs : List α) (i : JSNumber) (a : α)
    (h : jsIndex xs i = some a) : a ∈ xs := by
  cases i with
  | nan => simp [jsIndex] at h
  | num v =>
    simp only [jsIndex] at h
    split at h
    · exact List.get?_mem h
    · cases h
  | inf b => simp [jsIndex] at h

theorem chosenType_mem (inputs : ConfigInputs) (r : Draw) (t : String)
    (h : chosenType inputs r = some t) : t ∈ messageTypes :=
  jsIndex_mem _ _ _ h

theorem chosenType_ne_frameStart (inputs : ConfigInputs) (r : Draw) :
    chosenType inputs r ≠ some "canvas-frame-start" := by
  intro h
  have hm := chosenType_mem inputs r _ h
  revert hm
  decide

theorem chosenType_ne_frameEnd (inputs : ConfigInputs) (r : Draw) :
    chosenType inputs r ≠ some "canvas-frame-end" := by
  intro h
  have hm := chosenType_mem inputs r _ h
  revert hm
  decide

theorem fireTimeout_none (st : State) (i : Nat) (env : Env) (r : Draw)
    (h : st.timeouts.get? i = none) : fireTimeout st i env r = st := by
  unfold fireTimeout
  rw [h]

/-- What the run of a pending one-shot timer does to the state. -/
theorem fireTimeout_spec (st : State) (i : Nat) (env : Env) (r : Draw) (tm : Timeout)
    (h : st.timeouts.get? i = some tm) :
    ∃ m : Message,
      (fireTimeout st i env r).sent = st.sent ++ [m] ∧
      m.frameId = tm.action.frameId ∧
      m.id = messageIdText st.messageId ∧
      m.type ≠ some "canvas-frame-start" ∧
      ((∃ k, tm.action = Deferred.randomMessage k ∧ m.type = chosenType env.inputs r) ∨
       (∃ k s, tm.action = Deferred.frameEnd k s ∧ m.type = some "canvas-frame-end")) ∧
      (fireTimeout st i env r).timeouts = st.timeouts.eraseIdx i ∧
      (fireTimeout st i env r).frameId = st.frameId ∧
      (fireTimeout st i env r).messageId = st.messageId + 1 ∧
      (fireTimeout st i env r).isRunning = st.isRunning ∧
      (fireTimeout st i env r).intervalId = st.intervalId ∧
      (fireTimeout st i env r).intervals = st.intervals ∧
      (fireTimeout st i env r).status = st.status ∧
      (fireTimeout st i env r).logEntries =
        appendEntry st.logEntries (logEntryOf env m) ∧
      (fireTimeout st i env r).nextHandle = st.nextHandle := by
  obtain ⟨hd, due, act⟩ := tm
  cases act with
  | randomMessage k =>
    have e : fireTimeout st i env r =
        (sendRandomMessage { st with timeouts := st.timeouts.eraseIdx i } env r k).2 := by
      unfold fireTimeout
      rw [h]
    rw [e]
    exact ⟨(sendRandomMessage { st with timeouts := st.timeouts.eraseIdx i } env r k).1,
      rfl, rfl, rfl, chosenType_ne_frameStart env.inputs r, Or.inl ⟨k, rfl, rfl⟩,
      rfl, rfl, rfl, rfl, rfl, rfl, rfl, rfl, rfl⟩
  | frameEnd k s =>
    have e : fireTimeout st i env r =
        (sendFrameEnd { st with timeouts := st.timeouts.eraseIdx i } env k s).2 := by
      unfold fireTimeout
      rw [h]
    rw [e]
    exact ⟨(sendFrameEnd { st with timeouts := st.timeouts.eraseIdx i } env k s).1,
      rfl, rfl, rfl, (show some "canvas-frame-end" ≠ some "canvas-frame-start" by decide),
      Or.inr ⟨k, s, rfl, rfl⟩,
      rfl, rfl, rfl, rfl, rfl, rfl, rfl, rfl, rfl⟩

theorem intervalCallback_eq (st : State) (env : Env) (draws : TickDraws) :
    intervalCallback st env draws = sendSingleFrame st env draws := by
  unfold intervalCallback
  split <;> rfl

theorem fireInterval_none (st : State) (h : Nat) (env : Env) (draws : TickDraws)
    (hn : st.intervals.find? (fun iv => iv.handle = h) = none) :
    fireInterval st h env draws = st := by
  unfold fireInterval
  rw [hn]

theorem fireInterval_some (st : State) (h : Nat) (env : Env) (draws : TickDraws)
    (iv : Interval) (hs : st.intervals.find? (fun iv => iv.handle = h) = some iv) :
    fireInterval st h env draws =
      { sendSingleFrame st env draws with
        intervals := (sendSingleFrame st env draws).intervals.map (fun iv =>
          if iv.handle = h then { iv with nextDue := env.now + timerDelay iv.period }
          else iv) } := by
  unfold fireInterval
  rw [hs]
  simp only [intervalCallback_eq]

/-! ## Run/stop state machine: lemmas -/

theorem startSimulation_running (st : State) (env : Env) (h : st.isRunning = true) :
    startSimulation st env = st := by
  simp [startSimulation, h]

theorem stopSimulation_stopped (st : State) (inputs : ConfigInputs)
    (h : st.isRunning = false) : stopSimulation st inputs = st := by
  simp [stopSimulation, h]

theorem startSimulation_stopped (st : State) (env : Env) (h : st.isRunning = false) :
    startSimulation st env =
      { st with
        isRunning := true
        status :=
          { text := "Simulation Running - Sending frames every " ++
              (getConfig env.inputs).frameInterval.toJSString ++ "ms"
            className := "status running" }
        intervalId := some st.nextHandle
        nextHandle := st.nextHandle + 1
        intervals := st.intervals ++
          [{ handle := st.nextHandle, period := (getConfig env.inputs).frameInterval,
             nextDue := env.now + timerDelay (getConfig env.inputs).frameInterval }] } := by
  simp [startSimulation, h, updateStatus]

theorem stopSimulation_running (st : State) (inputs : ConfigInputs) (k : Nat)
    (h : st.isRunning = true) (hid : st.intervalId = some k) (hk : k ≠ 0) :
    stopSimulation st inputs =
      { st with
        isRunning := false
        status := { text := "Simulation Stopped", className := "status stopped" }
        intervalId := none
        intervals := st.intervals.filter (fun iv => iv.handle ≠ k) } := by
  simp [stopSimulation, h, hid, hk, updateStatus, clearInterval]

theorem TimerInv_init : TimerInv State.init := by
  refine ⟨rfl, rfl, ?_, Nat.le_refl 1⟩
  intro h hh
  cases hh

theorem TimerInv_start (st : State) (env : Env) (hinv : TimerInv st) :
    TimerInv (startSimulation st env) := by
  cases hr : st.isRunning with
  | true => rw [startSimulation_running st env hr]; exact hinv
  | false =>
    rw [startSimulation_stopped st env hr]
    obtain ⟨h1, h2, h3, h4⟩ := hinv
    have hnone : st.intervalId = none := by
      rw [hr] at h2
      cases hid : st.intervalId with
      | none => rfl
      | some k => rw [hid] at h2; cases h2
    have hnil : st.intervals = [] := by
      rw [hnone] at h1
      simpa using h1
    refine ⟨?_, rfl, ?_, ?_⟩
    · simp [hnil]
    · intro h hh
      simp only [Option.some.injEq] at hh
      omega
    · show 1 ≤ st.nextHandle + 1
      omega

theorem TimerInv_stop (st : State) (inputs : ConfigInputs) (hinv : TimerInv st) :
    TimerInv (stopSimulation st inputs) := by
  cases hr : st.isRunning with
  | false => rw [stopSimulation_stopped st inputs hr]; exact hinv
  | true =>
    obtain ⟨h1, h2, h3, h4⟩ := hinv
    cases hid : st.intervalId with
    | none => rw [hr, hid] at h2; cases h2
    | some k =>
      have hk := h3 k hid
      rw [stopSimulation_running st inputs k hr hid hk]
      refine ⟨?_, rfl, ?_, h4⟩
      · show List.map _ (st.intervals.filter (fun iv => iv.handle ≠ k)) = []
        rw [hid] at h1
        have hall : ∀ iv ∈ st.intervals, iv.handle = k := by
          intro iv hiv
          have : iv.handle ∈ st.intervals.map (fun iv => iv.handle) :=
            List.mem_map_of_mem _ hiv
          rw [h1] at this
          simpa using this
        rw [List.map_eq_nil_iff, List.filter_eq_nil_iff]
        intro iv hiv
        simp [hall iv hiv]
      · intro h hh
        cases hh

theorem rearm_handles (l : List Interval) (h now : Nat) :
    (l.map (fun iv =>
        if iv.handle = h then { iv with nextDue := now + timerDelay iv.period }
        else iv)).map (fun iv => iv.handle) = l.map (fun iv => iv.handle) := by
  rw [List.map_map]
  apply List.map_congr_left
  intro iv _
  simp only [Function.comp]
  split <;> rfl

theorem rearm_periods (l : List Interval) (h now : Nat) :
    (l.map (fun iv =>
        if iv.handle = h then { iv with nextDue := now + timerDelay iv.period }
        else iv)).map (fun iv => iv.period) = l.map (fun iv => iv.period) := by
  rw [List.map_map]
  apply List.map_congr_left
  intro iv _
  simp only [Function.comp]
  split <;> rfl

theorem TimerInv_tick (st : State) (h : Nat) (env : Env) (draws : TickDraws)
    (hinv : TimerInv st) : TimerInv (fireInterval st h env draws) := by
  cases hf : st.intervals.find? (fun iv => iv.handle = h) with
  | none => rw [fireInterval_none st h env draws hf]; exact hinv
  | some iv =>
    rw [fireInterval_some st h env draws iv hf]
    obtain ⟨m, added, _, _, _, _, _, _, _, _, _, hrun, hid, hivs, _, _, hnh, _⟩ :=
      sendSingleFrame_spec st env draws
    obtain ⟨h1, h2, h3, h4⟩ := hinv
    refine ⟨?_, ?_, ?_, ?_⟩
    · show List.map _ (List.map _ (sendSingleFrame st env draws).intervals) =
        (sendSingleFrame st env draws).intervalId.toList
      rw [rearm_handles, hivs, hid]
      exact h1
    · show (sendSingleFrame st env draws).isRunning =
        (sendSingleFrame st env draws).intervalId.isSome
      rw [hrun, hid]; exact h2
    · show ∀ k, (sendSingleFrame st env draws).intervalId = some k → k ≠ 0
      rw [hid]; exact h3
    · show 1 ≤ (sendSingleFrame st env draws).nextHandle
      omega

theorem TimerInv_timeout (st : State) (i : Nat) (env : Env) (r : Draw)
    (hinv : TimerInv st) : TimerInv (fireTimeout st i env r) := by
  cases hg : st.timeouts.get? i with
  | none => rw [fireTimeout_none st i env r hg]; exact hinv
  | some tm =>
    obtain ⟨m, _, _, _, _, _, _, _, _, hrun, hid, hivs, _, _, hnh⟩ :=
      fireTimeout_spec st i env r tm hg
    obtain ⟨h1, h2, h3, h4⟩ := hinv
    refine ⟨?_, ?_, ?_, ?_⟩
    · rw [hivs, hid]; exact h1
    · rw [hrun, hid]; exact h2
    · rw [hid]; exact h3
    · rw [hnh]; exact h4

theorem TimerInv_step (st : State) (e : Event) (hinv : TimerInv st) :
    TimerInv (step st e) := by
  cases e with
  | start env => exact TimerInv_start st env hinv
  | stop inputs => exact TimerInv_stop st inputs hinv
  | clear => exact hinv
  | tick h env draws => exact TimerInv_tick st h env draws hinv
  | timeout i env r => exact TimerInv_timeout st i env r hinv

theorem run_cons (st : State) (e : Event) (es : List Event) :
    run st (e :: es) = run (step st e) es := rfl

theorem TimerInv_run (events : List Event) :
    ∀ st : State, TimerInv st → TimerInv (run st events) := by
  induction events with
  | nil => intro st h; exact h
  | cons e rest ih =>
    intro st h
    rw [run_cons]
    exact ih _ (TimerInv_step st e h)

theorem startSimulation_logEntries (st : State) (env : Env) :
    (startSimulation st env).logEntries = st.logEntries := by
  cases hr : st.isRunning with
  | true => rw [startSimulation_running st env hr]
  | false => rw [startSimulation_stopped st env hr]

theorem stopSimulation_frame (st : State) (inputs : ConfigInputs) :
    (stopSimulation st inputs).logEntries = st.logEntries ∧
    (stopSimulation st inputs).sent = st.sent ∧
    (stopSimulation st inputs).timeouts = st.timeouts ∧
    (stopSimulation st inputs).frameId = st.frameId ∧
    (stopSimulation st inputs).messageId = st.messageId := by
  cases hr : st.isRunning with
  | false => rw [stopSimulation_stopped st inputs hr]; exact ⟨rfl, rfl, rfl, rfl, rfl⟩
  | true =>
    unfold stopSimulation
    simp only [hr, Bool.not_true, Bool.false_eq_true, if_false]
    cases st.intervalId with
    | none => exact ⟨rfl, rfl, rfl, rfl, rfl⟩
    | some k =>
      by_cases hk : k = 0
      · simp only [hk, ne_eq, not_true_eq_false, if_false]
        exact ⟨rfl, rfl, rfl, rfl, rfl⟩
      · simp only [ne_eq, hk, not_false_eq_true, if_true]
        exact ⟨rfl, rfl, rfl, rfl, rfl⟩

theorem startSimulation_frame (st : State) (env : Env) :
    (startSimulation st env).sent = st.sent ∧
    (startSimulation st env).timeouts = st.timeouts ∧
    (startSimulation st env).frameId = st.frameId ∧
    (startSimulation st env).messageId = st.messageId := by
  cases hr : st.isRunning with
  | true => rw [startSimulation_running st env hr]; exact ⟨rfl, rfl, rfl, rfl⟩
  | false => rw [startSimulation_stopped st env hr]; exact ⟨rfl, rfl, rfl, rfl⟩

theorem fireInterval_logEntries_length (st : State) (h : Nat) (env : Env)
    (draws : TickDraws) (hl : st.logEntries.length ≤ 100) :
    (fireInterval st h env draws).logEntries.length ≤ 100 := by
  cases hf : st.intervals.find? (fun iv => iv.handle = h) with
  | none => rw [fireInterval_none st h env draws hf]; exact hl
  | some iv =>
    rw [fireInterval_some st h env draws iv hf]
    obtain ⟨m, added, _, _, _, _, _, _, _, _, _, _, _, _, _, hlog, _⟩ :=
      sendSingleFrame_spec st env draws
    show (sendSingleFrame st env draws).logEntries.length ≤ 100
    rw [hlog, appendEntry_length]
    omega

theorem fireTimeout_logEntries_length (st : State) (i : Nat) (env : Env) (r : Draw)
    (hl : st.logEntries.length ≤ 100) :
    (fireTimeout st i env r).logEntries.length ≤ 100 := by
  cases hg : st.timeouts.get? i with
  | none => rw [fireTimeout_none st i env r hg]; exact hl
  | some tm =>
    obtain ⟨m, _, _, _, _, _, _, _, _, _, _, _, _, hlog, _⟩ :=
      fireTimeout_spec st i env r tm hg
    rw [hlog, appendEntry_length]
    omega

theorem step_logEntries_length (st : State) (e : Event)
    (hl : st.logEntries.length ≤ 100) : (step st e).logEntries.length ≤ 100 := by
  cases e with
  | start env => show (startSimulation st env).logEntries.length ≤ 100
                 rw [startSimulation_logEntries]; exact hl
  | stop inputs => show (stopSimulation st inputs).logEntries.length ≤ 100
                   rw [(stopSimulation_frame st inputs).1]; exact hl
  | clear => show (1 : Nat) ≤ 100
             omega
  | tick h env draws => exact fireInterval_logEntries_length st h env draws hl
  | timeout i env r => exact fireTimeout_logEntries_length st i env r hl

theorem run_logEntries_length (events : List Event) :
    ∀ st : State, st.logEntries.length ≤ 100 →
      (run st events).logEntries.length ≤ 100 := by
  induction events with
  | nil => intro st h; exact h
  | cons e rest ih =>
    intro st h
    rw [run_cons]
    exact ih _ (step_logEntries_length st e h)

/-! ## Rolling log and lifecycle: main statements -/

/-- C1. Rolling log append: the log after `logMessage` appends an entry `E` to a log `L`
is the last 100 elements of `L` followed by `E`; it holds `min (|L| + 1) 100` entries,
`E` is its last entry, the entries kept from `L` are its most recent ones in their
order, a log of exactly 100 entries loses its oldest entry, and no log reached from the
empty log by appends and clears (or by any run of the component) exceeds 100 entries. -/
theorem rolling_log_append (L : List LogEntry) (E : LogEntry) :
    appendEntry L E = (L ++ [E]).drop ((L ++ [E]).length - 100) ∧
    (appendEntry L E).length = min (L.length + 1) 100 ∧
    (appendEntry L E).getLast? = some E ∧
    appendEntry L E = L.drop (L.length - 99) ++ [E] ∧
    (L.length = 100 → appendEntry L E = L.tail ++ [E]) ∧
    (∀ (st : State) (env : Env) (m : Message),
      (logMessage st env m).logEntries = appendEntry st.logEntries (logEntryOf env m)) ∧
    (∀ actions : List LogAction, (actions.foldl applyLogAction []).length ≤ 100) ∧
    (∀ events : List Event, (run State.init events).logEntries.length ≤ 100) := by
  refine ⟨?_, appendEntry_length L E, ?_, appendEntry_eq_drop L E, ?_, ?_, ?_, ?_⟩
  · rw [appendEntry_eq]; simp
  · rw [appendEntry_eq_drop]; simp
  · intro h
    rw [appendEntry_eq_drop, h]
    cases L with
    | nil => simp at h
    | cons a t => rfl
  · intro st env m; rfl
  · intro actions
    exact foldl_applyLogAction_length_le actions [] (by simp)
  · intro events
    exact run_logEntries_length events State.init (by simp [State.init])

/-- C2. `clearLog`: whatever the log was, the log after a clear is exactly one entry, the
entry with id `cleared`; it is never empty, and clearing twice equals clearing once. -/
theorem clearLog_single_sentinel (st : State) :
    (clearLog st).logEntries = [clearedEntry] ∧
    (clearLog st).logEntries.length = 1 ∧
    (∀ e ∈ (clearLog st).logEntries, e.id = "cleared") ∧
    (clearLog st).logEntries ≠ [] ∧
    clearLog (clearLog st) = clearLog st := by
  refine ⟨rfl, rfl, ?_, ?_, rfl⟩
  · intro e he
    have : e = clearedEntry := by simpa [clearLog] using he
    rw [this]; rfl
  · simp [clearLog]

/-- C9. Run/stop state machine: the scheduler starts stopped with no timer; in every
state reached by any sequence of events, `startSimulation` when running and
`stopSimulation` when stopped change nothing, `startSimulation` when stopped sets the run
flag and installs one repeating timer, `stopSimulation` when running clears the flag and
removes the timer, a repeating timer is installed exactly when the flag is set, and at
most one is installed. -/
theorem run_stop_state_machine (events : List Event) (env : Env) (inputs : ConfigInputs) :
    State.init.isRunning = false ∧ State.init.intervals = [] ∧
    ((run State.init events).isRunning = true →
      startSimulation (run State.init events) env = run State.init events) ∧
    ((run State.init events).isRunning = false →
      stopSimulation (run State.init events) inputs = run State.init events) ∧
    ((run State.init events).isRunning = false →
      (startSimulation (run State.init events) env).isRunning = true ∧
      (startSimulation (run State.init events) env).intervals.length = 1 ∧
      (startSimulation (run State.init events) env).intervals.map (fun iv => iv.handle) =
        (startSimulation (run State.init events) env).intervalId.toList) ∧
    ((run State.init events).isRunning = true →
      (stopSimulation (run State.init events) inputs).isRunning = false ∧
      (stopSimulation (run State.init events) inputs).intervals = [] ∧
      (stopSimulation (run State.init events) inputs).intervalId = none) ∧
    ((run State.init events).isRunning = true ↔ (run State.init events).intervals ≠ []) ∧
    (run State.init events).intervals.length ≤ 1 ∧
    (run State.init events).intervals.map (fun iv => iv.handle) =
      (run State.init events).intervalId.toList := by
  have hinv := TimerInv_run events State.init TimerInv_init
  generalize run State.init events = st at hinv
  have hstart := TimerInv_start st env hinv
  have hstop := TimerInv_stop st inputs hinv
  obtain ⟨h1, h2, h3, h4⟩ := hinv
  have hlen : st.intervals.length = st.intervalId.toList.length := by
    rw [← h1, List.length_map]
  refine ⟨rfl, rfl, startSimulation_running st env, stopSimulation_stopped st inputs,
    ?_, ?_, ?_, ?_, h1⟩
  · intro hr
    obtain ⟨s1, s2, _, _⟩ := hstart
    have hrun : (startSimulation st env).isRunning = true := by
      rw [startSimulation_stopped st env hr]
    refine ⟨hrun, ?_, s1⟩
    rw [hrun] at s2
    have hl : (startSimulation st env).intervals.length =
        (startSimulation st env).intervalId.toList.length := by
      rw [← s1, List.length_map]
    rw [hl]
    cases hid : (startSimulation st env).intervalId with
    | none => rw [hid] at s2; cases s2
    | some k => rfl
  · intro hr
    obtain ⟨s1, s2, _, _⟩ := hstop
    cases hid : st.intervalId with
    | none => rw [hr, hid] at h2; cases h2
    | some k =>
      have e := stopSimulation_running st inputs k hr hid (h3 k hid)
      have hrun : (stopSimulation st inputs).isRunning = false := by rw [e]
      have hnone : (stopSimulation st inputs).intervalId = none := by rw [e]
      refine ⟨hrun, ?_, hnone⟩
      rw [hnone] at s1
      simpa using s1
  · cases hid : st.intervalId with
    | none =>
      rw [hid] at h2 hlen
      have : st.intervals = [] := List.length_eq_zero.1 hlen
      simp [h2, this]
    | some k =>
      rw [hid] at h2 hlen
      have : st.intervals ≠ [] := by
        intro hnil
        rw [hnil] at hlen
        cases hlen
      simp [h2, this]
  · rw [hlen]
    cases st.intervalId <;> simp

/-! ## Configuration and type selection -/

theorem floorMul_bounds (r : Draw) (m : Int) (hm : 1 ≤ m) :
    ∃ q : Int, floorMul r (JSNumber.num m) = JSNumber.num q ∧ 0 ≤ q ∧ q < m := by
  have hlt := r.lt
  have hden : (0 : Int) < (r.den : Int) := by
    have : 0 < r.den := by omega
    exact_mod_cast this
  refine ⟨Int.fdiv ((r.num : Int) * m) (r.den : Int), rfl, ?_, ?_⟩
  · rw [Int.fdiv_eq_ediv _ (le_of_lt hden)]
    apply Int.ediv_nonneg
    · have : (0 : Int) ≤ (r.num : Int) := Int.ofNat_nonneg _
      positivity
    · exact le_of_lt hden
  · rw [Int.fdiv_eq_ediv _ (le_of_lt hden)]
    apply Int.ediv_lt_of_lt_mul hden
    have h1 : (r.num : Int) < (r.den : Int) := by exact_mod_cast hlt
    have h2 : (0 : Int) ≤ (r.num : Int) := Int.ofNat_nonneg _
    nlinarith

/-- C3, as stated, fails: with the diversity input reading `0` the emitted type is the
first entry of `messageTypes`, which is not among its first `min 0 15 = 0` entries; with
a negative or an unparseable diversity the emitted type can be `undefined`. -/
theorem type_selection_outside_range :
    (getConfig ⟨none, none, none, some "0"⟩).messageDiversity = JSNumber.num 0 ∧
    chosenType ⟨none, none, none, some "0"⟩ ⟨0, 1, by decide⟩ =
      some "ecs-component-update" ∧
    "ecs-component-update" ∉ messageTypes.take (min (0 : Int) 15).toNat ∧
    (getConfig ⟨none, none, none, some "-3"⟩).messageDiversity = JSNumber.num (-3) ∧
    chosenType ⟨none, none, none, some "-3"⟩ ⟨1, 2, by decide⟩ = none ∧
    (getConfig ⟨none, none, none, some ""⟩).messageDiversity = JSNumber.nan ∧
    chosenType ⟨none, none, none, some ""⟩ ⟨1, 2, by decide⟩ = none := by
  decide

/-- C3, amended. When `getConfig` returns a message diversity `d ≥ 1`, the type chosen by
`sendRandomMessage` is, for every draw, one of the first `min d 15` entries of the 15
`messageTypes`; with `d = 1` it is always `ecs-component-update`. -/
theorem type_selection_in_range (inputs : ConfigInputs) (r : Draw) (d : Int)
    (h : (getConfig inputs).messageDiversity = JSNumber.num d) (hd : 1 ≤ d) :
    messageTypes.length = 15 ∧
    ∃ t : String, chosenType inputs r = some t ∧
      t ∈ messageTypes.take (min d 15).toNat ∧
      (d = 1 → t = "ecs-component-update") := by
  refine ⟨rfl, ?_⟩
  have hm : 1 ≤ min d 15 := le_min hd (by decide)
  obtain ⟨q, hq, hq0, hqlt⟩ := floorMul_bounds r (min d 15) hm
  have hidx : typeIndex (getConfig inputs) r = JSNumber.num q := by
    unfold typeIndex
    rw [h]
    exact hq
  have hqn : q.toNat < (min d 15).toNat := by omega
  have hlen : q.toNat < messageTypes.length := by
    have : messageTypes.length = 15 := rfl
    omega
  have hget : messageTypes.get? q.toNat = some (messageTypes.get ⟨q.toNat, hlen⟩) :=
    List.get?_eq_get hlen
  refine ⟨messageTypes.get ⟨q.toNat, hlen⟩, ?_, ?_, ?_⟩
  · unfold chosenType
    rw [hidx]
    simp only [jsIndex, hq0, if_true]
    exact hget
  · have htake : (messageTypes.take (min d 15).toNat).get? q.toNat =
        some (messageTypes.get ⟨q.toNat, hlen⟩) := by
      rw [List.get?_eq_getElem?, List.getElem?_take_of_lt hqn, ← List.get?_eq_getElem?, hget]
    exact List.get?_mem htake
  · intro h1
    have hq1 : q.toNat = 0 := by
      subst h1
      have : min (1 : Int) 15 = 1 := by decide
      omega
    have : messageTypes.get? q.toNat = some "ecs-component-update" := by
      rw [hq1]; rfl
    rw [hget] at this
    exact Option.some.inj this

/-- The amended C3 at a concrete input: the diversity input reads `3` and the draw is
`2/3`. -/
theorem type_selection_in_range_witness :
    messageTypes.length = 15 ∧
    ∃ t : String, chosenType ⟨none, none, none, some "3"⟩ ⟨2, 3, by decide⟩ = some t ∧
      t ∈ messageTypes.take (min (3 : Int) 15).toNat ∧
      ((3 : Int) = 1 → t = "ecs-component-update") :=
  type_selection_in_range ⟨none, none, none, some "3"⟩ ⟨2, 3, by decide⟩ 3
    (by decide) (by decide)

/-- C4, as stated, fails: an input that is present with the empty string or with
non-numeric text gives the field `NaN`, not the fallback default. -/
theorem getConfig_nan_without_fallback :
    (getConfig ⟨some "", some "abc", some "50", some "8"⟩).frameInterval = JSNumber.nan ∧
    (getConfig ⟨some "", some "abc", some "50", some "8"⟩).frameInterval ≠
      JSNumber.num 500 ∧
    (getConfig ⟨some "", some "abc", some "50", some "8"⟩).messagesPerFrame =
      JSNumber.nan ∧
    (getConfig ⟨some "", some "abc", some "50", some "8"⟩).messagesPerFrame ≠
      JSNumber.num 10 := by
  decide

/-! ## Message identity: lemmas -/

theorem digitChar_toNat (d : Nat) (h : d < 10) : (Nat.digitChar d).toNat = 48 + d := by
  interval_cases d <;> rfl

theorem decimalValue_append_singleton (xs : List Char) (c : Char) :
    decimalValue (xs ++ [c]) = 10 * decimalValue xs + (c.toNat - 48) := by
  simp [decimalValue, List.foldl_append]

theorem toDigitsCore_decimal (fuel : Nat) :
    ∀ (n : Nat) (ds : List Char), n < fuel →
      ∃ xs : List Char, Nat.toDigitsCore 10 fuel n ds = xs ++ ds ∧ decimalValue xs = n ∧
        xs ≠ [] ∧ ∀ c ∈ xs, 48 ≤ c.toNat ∧ c.toNat ≤ 57 := by
  induction fuel with
  | zero => intro n ds h; omega
  | succ f ih =>
    intro n ds h
    have hlt : n % 10 < 10 := Nat.mod_lt _ (by decide)
    have hd := digitChar_toNat (n % 10) hlt
    by_cases h0 : n / 10 = 0
    · refine ⟨[Nat.digitChar (n % 10)], ?_, ?_, by simp, ?_⟩
      · simp [Nat.toDigitsCore, h0]
      · simp only [decimalValue, List.foldl_cons, List.foldl_nil]
        omega
      · intro c hc
        rw [List.mem_singleton.1 hc]
        omega
    · have hf : n / 10 < f := by omega
      obtain ⟨xs, hx, hv, _, hall⟩ := ih (n / 10) (Nat.digitChar (n % 10) :: ds) hf
      refine ⟨xs ++ [Nat.digitChar (n % 10)], ?_, ?_, by simp, ?_⟩
      · simp [Nat.toDigitsCore, h0, hx]
      · rw [decimalValue_append_singleton, hv]
        omega
      · intro c hc
        rcases List.mem_append.1 hc with h1 | h1
        · exact hall c h1
        · rw [List.mem_singleton.1 h1]
          omega

theorem toDigits_decimal (n : Nat) :
    decimalValue (Nat.toDigits 10 n) = n ∧ Nat.toDigits 10 n ≠ [] ∧
      ∀ c ∈ Nat.toDigits 10 n, 48 ≤ c.toNat ∧ c.toNat ≤ 57 := by
  obtain ⟨xs, hx, hv, hne, hall⟩ := toDigitsCore_decimal (n + 1) n [] (Nat.lt_succ_self n)
  unfold Nat.toDigits
  rw [hx, List.append_nil]
  exact ⟨hv, hne, hall⟩

theorem decimalValue_toDigits (n : Nat) : decimalValue (Nat.toDigits 10 n) = n :=
  (toDigits_decimal n).1

theorem messageIdText_injective : Function.Injective messageIdText := by
  intro a b h
  have h1 : ("msg-" ++ toString a).data = ("msg-" ++ toString b).data := congrArg String.data h
  rw [String.data_append, String.data_append] at h1
  have h2 : (toString a).data = (toString b).data := List.append_cancel_left h1
  have h3 : Nat.toDigits 10 a = Nat.toDigits 10 b := h2
  have h4 := congrArg decimalValue h3
  rwa [decimalValue_toDigits, decimalValue_toDigits] at h4

/-! ## The three kinds of step -/

theorem fireInterval_ticked (st : State) (h : Nat) (env : Env) (draws : TickDraws)
    (iv : Interval) (hs : st.intervals.find? (fun iv => iv.handle = h) = some iv) :
    Ticked st (fireInterval st h env draws) := by
  rw [fireInterval_some st h env draws iv hs]
  obtain ⟨m, added, h1, h2, h3, h4, h5, h6, _, h8, h9, _⟩ :=
    sendSingleFrame_spec st env draws
  exact ⟨m, added, h1, h2, h3, h4, h5, h6.2, h8, h9⟩

theorem fireTimeout_fired (st : State) (i : Nat) (env : Env) (r : Draw) (tm : Timeout)
    (hg : st.timeouts.get? i = some tm) : Fired st (fireTimeout st i env r) := by
  obtain ⟨m, h1, h2, h3, h4, _, h6, h7, h8, _⟩ := fireTimeout_spec st i env r tm hg
  exact ⟨m, i, tm, hg, h1, h4, h2, h3, h6, h7, h8⟩

/-- Every step is of one of the three kinds. -/
theorem step_cases (st : State) (e : Event) :
    Quiet st (step st e) ∨ Ticked st (step st e) ∨ Fired st (step st e) := by
  cases e with
  | start env =>
    obtain ⟨h1, h2, h3, h4⟩ := startSimulation_frame st env
    exact Or.inl ⟨h1, h4, h3, h2⟩
  | stop inputs =>
    obtain ⟨_, h1, h2, h3, h4⟩ := stopSimulation_frame st inputs
    exact Or.inl ⟨h1, h4, h3, h2⟩
  | clear => exact Or.inl ⟨rfl, rfl, rfl, rfl⟩
  | tick h env draws =>
    show Quiet st (fireInterval st h env draws) ∨ _
    cases hf : st.intervals.find? (fun iv => iv.handle = h) with
    | none =>
      rw [fireInterval_none st h env draws hf]
      exact Or.inl ⟨rfl, rfl, rfl, rfl⟩
    | some iv => exact Or.inr (Or.inl (fireInterval_ticked st h env draws iv hf))
  | timeout i env r =>
    show Quiet st (fireTimeout st i env r) ∨ _
    cases hg : st.timeouts.get? i with
    | none =>
      rw [fireTimeout_none st i env r hg]
      exact Or.inl ⟨rfl, rfl, rfl, rfl⟩
    | some tm => exact Or.inr (Or.inr (fireTimeout_fired st i env r tm hg))

/-! ## Invariants of a run -/

theorem IdInv_append (st st' : State) (m : Message) (hinv : IdInv st)
    (hs : st'.sent = st.sent ++ [m]) (hid : m.id = messageIdText st.messageId)
    (hc : st'.messageId = st.messageId + 1) : IdInv st' := by
  obtain ⟨h1, h2⟩ := hinv
  unfold sentIds at h1
  refine ⟨?_, ?_⟩
  · unfold sentIds
    rw [hs, List.map_append, h1, List.length_append, List.length_singleton,
      List.range'_1_concat, List.map_append]
    simp only [List.map_cons, List.map_nil, hid, h2, Nat.add_comm]
  · rw [hc, hs, h2, List.length_append, List.length_singleton]

theorem IdInv_step (st : State) (e : Event) (hinv : IdInv st) : IdInv (step st e) := by
  rcases step_cases st e with h | h | h
  · obtain ⟨h1, h2, _, _⟩ := h
    unfold IdInv sentIds at *
    rw [h1, h2]
    exact hinv
  · obtain ⟨m, added, h1, _, _, h4, _, _, _, h8⟩ := h
    exact IdInv_append st _ m hinv h1 h4 h8
  · obtain ⟨m, i, tm, _, h1, _, _, h4, _, _, h7⟩ := h
    exact IdInv_append st _ m hinv h1 h4 h7

theorem IdInv_run (events : List Event) :
    ∀ st : State, IdInv st → IdInv (run st events) := by
  induction events with
  | nil => intro st h; exact h
  | cons e rest ih =>
    intro st h
    rw [run_cons]
    exact ih _ (IdInv_step st e h)

theorem IdInv_init : IdInv State.init := ⟨rfl, rfl⟩

theorem Bracketed_append (l : List Message) (m : Message) (hl : Bracketed l)
    (hm : m.type ≠ some "canvas-frame-start" →
      ∃ s ∈ l, s.type = some "canvas-frame-start" ∧ s.frameId = m.frameId) :
    Bracketed (l ++ [m]) := by
  intro j x hj hx
  by_cases hlt : j < l.length
  · rw [List.getElem?_append_left hlt] at hj
    obtain ⟨i, s, hi, hs, h1, h2⟩ := hl j x hj hx
    refine ⟨i, s, hi, ?_, h1, h2⟩
    rw [List.getElem?_append_left (by omega)]
    exact hs
  · have hge : l.length ≤ j := by omega
    rw [List.getElem?_append_right hge] at hj
    have hj0 : j - l.length = 0 := by
      by_contra hne
      have : ([m] : List Message)[j - l.length]? = none := by
        apply List.getElem?_eq_none
        simp only [List.length_singleton]
        omega
      rw [this] at hj
      cases hj
    rw [hj0] at hj
    have hxm : x = m := by
      simp only [List.getElem?_cons_zero, Option.some.injEq] at hj
      exact hj.symm
    subst hxm
    obtain ⟨s, hs, h1, h2⟩ := hm hx
    obtain ⟨i, hi, hget⟩ := List.getElem_of_mem hs
    refine ⟨i, s, by omega, ?_, h1, h2⟩
    rw [List.getElem?_append_left hi, List.getElem?_eq_getElem hi, hget]

theorem FrameInv_init : FrameInv State.init := by
  refine ⟨Nat.le_refl 1, rfl, ?_, ?_⟩
  · intro tm htm
    cases htm
  · intro j m hj
    simp [State.init] at hj

theorem FrameInv_step (st : State) (e : Event) (hinv : FrameInv st) :
    FrameInv (step st e) := by
  obtain ⟨h1, h2, h3, h4⟩ := hinv
  rcases step_cases st e with h | h | h
  · obtain ⟨q1, _, q3, q4⟩ := h
    unfold FrameInv sentFrameStarts at *
    rw [q1, q3, q4]
    exact ⟨h1, h2, h3, h4⟩
  · obtain ⟨m, added, q1, q2, q3, _, q5, q6, q7, _⟩ := h
    have hstart : m.isFrameStart = true := by
      simp [Message.isFrameStart, q2]
    refine ⟨by omega, ?_, ?_, ?_⟩
    · unfold sentFrameStarts at *
      rw [q1, List.filter_append, List.map_append, h2, q7]
      simp only [List.filter_cons, hstart, if_true, List.filter_nil, List.map_cons,
        List.map_nil, q3]
      have : st.frameId + 1 - 1 = (st.frameId - 1) + 1 := by omega
      rw [this, List.range'_1_concat]
      congr 2
      omega
    · intro tm htm
      rw [q5] at htm
      rw [q1]
      rcases List.mem_append.1 htm with hin | hin
      · obtain ⟨s, hs, hs1, hs2⟩ := h3 tm hin
        exact ⟨s, List.mem_append_left _ hs, hs1, hs2⟩
      · exact ⟨m, List.mem_append_right _ (List.mem_singleton_self m), q2,
          by rw [q3, q6 tm hin]⟩
    · rw [q1]
      apply Bracketed_append _ _ h4
      intro hne
      exact absurd q2 hne
  · obtain ⟨m, i, tm, q0, q1, q2, q3, _, q5, q6, _⟩ := h
    have hnot : m.isFrameStart = false := by
      simp [Message.isFrameStart, q2]
    have htm : tm ∈ st.timeouts := List.get?_mem q0
    refine ⟨by omega, ?_, ?_, ?_⟩
    · unfold sentFrameStarts at *
      rw [q1, List.filter_append, q6]
      simp only [List.filter_cons, hnot, List.filter_nil, List.append_nil]
      simpa using h2
    · intro tm2 htm2
      rw [q5] at htm2
      rw [q1]
      obtain ⟨s, hs, hs1, hs2⟩ := h3 tm2 (List.mem_of_mem_eraseIdx htm2)
      exact ⟨s, List.mem_append_left _ hs, hs1, hs2⟩
    · rw [q1]
      apply Bracketed_append _ _ h4
      intro _
      obtain ⟨s, hs, hs1, hs2⟩ := h3 tm htm
      exact ⟨s, hs, hs1, by rw [hs2, q3]⟩

theorem FrameInv_run (events : List Event) :
    ∀ st : State, FrameInv st → FrameInv (run st events) := by
  induction events with
  | nil => intro st h; exact h
  | cons e rest ih =>
    intro st h
    rw [run_cons]
    exact ih _ (FrameInv_step st e h)

theorem count_frameStarts (l : List Message) (k : Nat) :
    (l.filter (fun m => m.isFrameStart && m.frameId == k)).length =
      List.count k ((l.filter Message.isFrameStart).map (fun m => m.frameId)) := by
  induction l with
  | nil => rfl
  | cons a t ih =>
    by_cases h1 : a.isFrameStart = true
    · by_cases h2 : a.frameId = k
      · simp [List.filter_cons, h1, h2, ih]
      · have h3 : (a.frameId == k) = false := by simpa using h2
        simp [List.filter_cons, h1, h3, h2, ih, List.count_cons]
    · have h1f : a.isFrameStart = false := by simpa using h1
      simp [List.filter_cons, h1f, ih]

theorem count_range_one (n k : Nat) :
    List.count k (List.range' 1 n) = if 1 ≤ k ∧ k < 1 + n then 1 else 0 := by
  by_cases h : 1 ≤ k ∧ k < 1 + n
  · rw [if_pos h]
    exact List.count_eq_one_of_mem (List.nodup_range' 1 n) (List.mem_range'_1.2 h)
  · rw [if_neg h]
    exact List.count_eq_zero_of_not_mem (fun hm => h (List.mem_range'_1.1 hm))

/-- C5. Frame tick: when the repeating timer runs and the configuration reads
`messagesPerFrame = n`, whatever the draws (the skip draw included), the tick emits at
once exactly one frame-start message, schedules exactly `n` deferred event emissions and
then one deferred frame end, all for the frame id the tick allocated, and advances the
frame counter by one; each scheduled emission later emits exactly one message of its
kind for that frame. With `n = 0` only the frame end is scheduled. -/
theorem frame_tick_emissions (st : State) (h : Nat) (env : Env) (draws : TickDraws)
    (iv : Interval) (n : Nat)
    (hinst : st.intervals.find? (fun iv => iv.handle = h) = some iv)
    (hn : (getConfig env.inputs).messagesPerFrame = JSNumber.num (n : Int)) :
    (∃ (m : Message) (added : List Timeout),
      (fireInterval st h env draws).sent = st.sent ++ [m] ∧
      m.type = some "canvas-frame-start" ∧ m.frameId = st.frameId ∧
      (fireInterval st h env draws).timeouts = st.timeouts ++ added ∧
      added.map (fun tm => tm.action) =
        List.replicate n (Deferred.randomMessage st.frameId) ++
          [Deferred.frameEnd st.frameId m.timestamp] ∧
      (n = 0 → added.map (fun tm => tm.action) =
        [Deferred.frameEnd st.frameId m.timestamp])) ∧
    (fireInterval st h env draws).frameId = st.frameId + 1 ∧
    (∀ skip : Draw, fireInterval st h env { draws with skip := skip } =
      fireInterval st h env draws) ∧
    (∀ (s : State) (i : Nat) (env2 : Env) (r : Draw),
      (s.timeouts.get? i).map (fun tm => tm.action) =
          some (Deferred.randomMessage st.frameId) →
        ∃ m2 : Message, (fireTimeout s i env2 r).sent = s.sent ++ [m2] ∧
          m2.frameId = st.frameId ∧ m2.type = chosenType env2.inputs r ∧
          m2.type ≠ some "canvas-frame-start" ∧ m2.type ≠ some "canvas-frame-end") ∧
    (∀ (s : State) (i : Nat) (env2 : Env) (r : Draw) (t : Nat),
      (s.timeouts.get? i).map (fun tm => tm.action) =
          some (Deferred.frameEnd st.frameId t) →
        ∃ m2 : Message, (fireTimeout s i env2 r).sent = s.sent ++ [m2] ∧
          m2.frameId = st.frameId ∧ m2.type = some "canvas-frame-end") := by
  have hiter : iterations (getConfig env.inputs).messagesPerFrame = some n := by
    rw [hn]; simp [iterations]
  have heq := fireInterval_some st h env draws iv hinst
  obtain ⟨m, added, h1, h2, h3, _, h5, h6, _, h8, _, _, _, _, _, _, _, hts⟩ :=
    sendSingleFrame_spec st env draws
  replace h6 := h6.1 n hiter
  refine ⟨⟨m, added, ?_, h2, h3, ?_, ?_, ?_⟩, ?_, ?_, ?_, ?_⟩
  · rw [heq]; exact h1
  · rw [heq]; exact h5
  · rw [hts]; exact h6
  · intro h0
    rw [hts, h6, h0]
    rfl
  · rw [heq]; exact h8
  · intro skip
    rw [heq, fireInterval_some st h env { draws with skip := skip } iv hinst]
    rfl
  · intro s i env2 r hact
    cases hg : s.timeouts.get? i with
    | none => rw [hg] at hact; cases hact
    | some tm =>
      rw [hg] at hact
      have hta : tm.action = Deferred.randomMessage st.frameId := by
        simpa using hact
      obtain ⟨m2, q1, q2, _, q4, q5, _⟩ := fireTimeout_spec s i env2 r tm hg
      have hty : m2.type = chosenType env2.inputs r := by
        rcases q5 with ⟨k, _, hk⟩ | ⟨k, t, hk, _⟩
        · exact hk
        · rw [hta] at hk; cases hk
      refine ⟨m2, q1, ?_, hty, q4, ?_⟩
      · rw [q2, hta]; rfl
      · rw [hty]; exact chosenType_ne_frameEnd env2.inputs r
  · intro s i env2 r t hact
    cases hg : s.timeouts.get? i with
    | none => rw [hg] at hact; cases hact
    | some tm =>
      rw [hg] at hact
      have hta : tm.action = Deferred.frameEnd st.frameId t := by
        simpa using hact
      obtain ⟨m2, q1, q2, _, _, q5, _⟩ := fireTimeout_spec s i env2 r tm hg
      refine ⟨m2, q1, ?_, ?_⟩
      · rw [q2, hta]; rfl
      · rcases q5 with ⟨k, hk, _⟩ | ⟨k, t2, _, hk⟩
        · rw [hta] at hk; cases hk
        · exact hk

/-- C5 at a concrete input: the first tick after a start, two messages per frame. -/
theorem frame_tick_emissions_witness :
    (startSimulation State.init (sampleEnv "500" "2" "8" 0)).intervals.find?
        (fun iv => iv.handle = 1) =
      some { handle := 1, period := JSNumber.num 500, nextDue := 500 } ∧
    (getConfig (sampleEnv "500" "2" "8" 500).inputs).messagesPerFrame =
      JSNumber.num ((2 : Nat) : Int) ∧
    (∃ (m : Message) (added : List Timeout),
      (fireInterval (startSimulation State.init (sampleEnv "500" "2" "8" 0)) 1
          (sampleEnv "500" "2" "8" 500) sampleDraws).sent =
        (startSimulation State.init (sampleEnv "500" "2" "8" 0)).sent ++ [m] ∧
      m.type = some "canvas-frame-start" ∧
      m.frameId = (startSimulation State.init (sampleEnv "500" "2" "8" 0)).frameId ∧
      (fireInterval (startSimulation State.init (sampleEnv "500" "2" "8" 0)) 1
          (sampleEnv "500" "2" "8" 500) sampleDraws).timeouts =
        (startSimulation State.init (sampleEnv "500" "2" "8" 0)).timeouts ++ added ∧
      added.map (fun tm => tm.action) =
        List.replicate 2 (Deferred.randomMessage
          (startSimulation State.init (sampleEnv "500" "2" "8" 0)).frameId) ++
          [Deferred.frameEnd
            (startSimulation State.init (sampleEnv "500" "2" "8" 0)).frameId m.timestamp] ∧
      (2 = 0 → added.map (fun tm => tm.action) =
        [Deferred.frameEnd
          (startSimulation State.init (sampleEnv "500" "2" "8" 0)).frameId m.timestamp])) :=
  ⟨by decide, by decide,
    (frame_tick_emissions (startSimulation State.init (sampleEnv "500" "2" "8" 0)) 1
      (sampleEnv "500" "2" "8" 500) sampleDraws
      { handle := 1, period := JSNumber.num 500, nextDue := 500 } 2
      (by decide) (by decide)).1⟩

/-- C6. Message identity: in every run, the ids of the emitted messages are, in emission
order, `msg-1`, `msg-2`, ... (the texts of the counter values 1, 2, ... with nothing
skipped or repeated); no two emitted ids are equal; the counter read from a later id is
larger than the one read from an earlier id; the counter always is one past the number
of messages emitted; and `generateMessage` uses the current counter and increments it by
exactly one. -/
theorem message_ids_unique_increasing (events : List Event) :
    sentIds (run State.init events) =
      (List.range' 1 (run State.init events).sent.length).map messageIdText ∧
    (sentIds (run State.init events)).Nodup ∧
    (∀ (i j a b : Nat), i < j →
      (sentIds (run State.init events))[i]? = some (messageIdText a) →
      (sentIds (run State.init events))[j]? = some (messageIdText b) → a < b) ∧
    (run State.init events).messageId = (run State.init events).sent.length + 1 ∧
    (∀ (st : State) (env : Env) (type : Option String) (k : Nat) (dur : Option Int)
        (keys : List String),
      (generateMessage st env type k dur keys).1.id = messageIdText st.messageId ∧
      (generateMessage st env type k dur keys).2.messageId = st.messageId + 1) ∧
    messageIdText 1 = "msg-1" ∧
    Function.Injective messageIdText := by
  obtain ⟨h1, h2⟩ := IdInv_run events State.init IdInv_init
  have hget : ∀ (i a : Nat),
      (sentIds (run State.init events))[i]? = some (messageIdText a) → a = 1 + i := by
    intro i a hi
    rw [h1, List.getElem?_map] at hi
    cases hr : (List.range' 1 (run State.init events).sent.length)[i]? with
    | none => rw [hr] at hi; cases hi
    | some v =>
      rw [hr] at hi
      have hv : messageIdText v = messageIdText a := by simpa using hi
      have hva := messageIdText_injective hv
      obtain ⟨hlt, hval⟩ := List.getElem?_eq_some_iff.1 hr
      rw [List.getElem_range'] at hval
      omega
  refine ⟨h1, ?_, ?_, h2, ?_, by decide, messageIdText_injective⟩
  · rw [h1]
    exact (List.nodup_range' 1 _).map messageIdText_injective
  · intro i j a b hij hi hj
    have ha := hget i a hi
    have hb := hget j b hj
    omega
  · intro st env type k dur keys
    exact ⟨rfl, rfl⟩

/-- C8. Frame bracketing start: in every run, the frame ids start at 1; the frame-start
messages emitted so far carry, in emission order, the frame ids 1, 2, ... up to the last
allocated one, so exactly one frame start is emitted for each allocated frame id; every
emitted message that is not a frame start is preceded by the frame start of its frame;
every pending deferred emission belongs to a frame whose start is already emitted; and a
tick emits the frame start of the frame id it allocates and advances the counter by
one. -/
theorem frame_start_precedes (events : List Event) :
    State.init.frameId = 1 ∧
    (sentFrameStarts (run State.init events)).map (fun m => m.frameId) =
      List.range' 1 ((run State.init events).frameId - 1) ∧
    (∀ k : Nat,
      ((run State.init events).sent.filter
          (fun m => m.isFrameStart && m.frameId == k)).length =
        if 1 ≤ k ∧ k < (run State.init events).frameId then 1 else 0) ∧
    (∀ (j : Nat) (m : Message), (run State.init events).sent[j]? = some m →
      m.type ≠ some "canvas-frame-start" →
      ∃ (i : Nat) (s : Message), i < j ∧ (run State.init events).sent[i]? = some s ∧
        s.type = some "canvas-frame-start" ∧ s.frameId = m.frameId) ∧
    (∀ tm ∈ (run State.init events).timeouts, ∃ s ∈ (run State.init events).sent,
      s.type = some "canvas-frame-start" ∧ s.frameId = tm.action.frameId) ∧
    (∀ (h : Nat) (env : Env) (draws : TickDraws) (iv : Interval),
      (run State.init events).intervals.find? (fun iv => iv.handle = h) = some iv →
      (fireInterval (run State.init events) h env draws).frameId =
        (run State.init events).frameId + 1 ∧
      ∃ m : Message,
        (fireInterval (run State.init events) h env draws).sent =
          (run State.init events).sent ++ [m] ∧
        m.type = some "canvas-frame-start" ∧
        m.frameId = (run State.init events).frameId) := by
  obtain ⟨h1, h2, h3, h4⟩ := FrameInv_run events State.init FrameInv_init
  refine ⟨rfl, h2, ?_, h4, h3, ?_⟩
  · intro k
    unfold sentFrameStarts at h2
    rw [count_frameStarts, h2, count_range_one]
    have : (1 ≤ k ∧ k < 1 + ((run State.init events).frameId - 1)) ↔
        (1 ≤ k ∧ k < (run State.init events).frameId) := by omega
    simp only [this]
  · intro h env draws iv hf
    obtain ⟨m, added, q1, q2, q3, _, _, _, q7, _⟩ :=
      fireInterval_ticked (run State.init events) h env draws iv hf
    exact ⟨q7, m, q1, q2, q3⟩

/-- C7, as stated, fails: with a frame interval of 5 ms, in a run whose timers run in due
order, the deferred message of frame 1 (due 8 ms after its tick) is emitted after the
frame start of frame 2. -/
theorem frameIds_can_decrease :
    timedRun 0 State.init shortIntervalRun = true ∧
    sentFrameIds (run State.init shortIntervalRun) = [1, 2, 1] ∧
    ¬ (sentFrameIds (run State.init shortIntervalRun)).Pairwise (fun a b => a ≤ b) := by
  decide

/-! ## Frame order in timed runs: lemmas -/

theorem stopSimulation_intervals_subset (st : State) (inputs : ConfigInputs) :
    ∀ iv ∈ (stopSimulation st inputs).intervals, iv ∈ st.intervals := by
  cases hr : st.isRunning with
  | false => rw [stopSimulation_stopped st inputs hr]; exact fun _ h => h
  | true =>
    unfold stopSimulation
    simp only [hr, Bool.not_true, Bool.false_eq_true, if_false]
    cases st.intervalId with
    | none => exact fun _ h => h
    | some k =>
      by_cases hk : k = 0
      · simp only [hk, ne_eq, not_true_eq_false, if_false]
        exact fun _ h => h
      · simp only [ne_eq, hk, not_false_eq_true, if_true]
        intro iv hiv
        exact List.mem_of_mem_filter hiv

theorem sentFrameIds_append (st st' : State) (m : Message)
    (hs : st'.sent = st.sent ++ [m]) :
    sentFrameIds st' = sentFrameIds st ++ [m.frameId] := by
  unfold sentFrameIds
  rw [hs, List.map_append]
  rfl

theorem pairwise_le_concat (l : List Nat) (x : Nat)
    (hl : l.Pairwise (fun a b => a ≤ b)) (hx : ∀ a ∈ l, a ≤ x) :
    (l ++ [x]).Pairwise (fun a b => a ≤ b) := by
  rw [List.pairwise_append]
  refine ⟨hl, List.pairwise_singleton _ _, ?_⟩
  intro a ha b hb
  rw [List.mem_singleton.1 hb]
  exact hx a ha

theorem SortedInv_init : SortedInv 0 State.init := by
  refine ⟨List.Pairwise.nil, ?_, ?_, ⟨0, Nat.le_refl 0, ?_, ?_⟩, ?_, TimerInv_init⟩
  · intro m hm; cases hm
  · intro tm htm; cases htm
  · intro tm htm; cases htm
  · intro iv hiv; cases hiv
  · intro iv hiv; cases hiv

theorem SortedInv_start (clock : Nat) (st : State) (env : Env)
    (hinv : SortedInv clock st) (hclock : clock ≤ env.now)
    (hslow : 17 ≤ timerDelay (getConfig env.inputs).frameInterval) :
    SortedInv env.now (startSimulation st env) := by
  obtain ⟨h1, h2, h3, ⟨T, hT, h4, h5⟩, h6, h7⟩ := hinv
  cases hr : st.isRunning with
  | true =>
    rw [startSimulation_running st env hr]
    exact ⟨h1, h2, h3, ⟨T, by omega, h4, h5⟩, h6, h7⟩
  | false =>
    have htinv := TimerInv_start st env h7
    have hnil : st.intervals = [] := by
      obtain ⟨t1, t2, _, _⟩ := h7
      rw [hr] at t2
      cases hid : st.intervalId with
      | none => rw [hid] at t1; simpa using t1
      | some k => rw [hid] at t2; cases t2
    rw [startSimulation_stopped st env hr] at htinv ⊢
    refine ⟨h1, h2, h3, ⟨T, by omega, h4, ?_⟩, ?_, htinv⟩
    · intro iv hiv
      simp only [hnil, List.nil_append, List.mem_singleton] at hiv
      rw [hiv]
      show T + 17 ≤ env.now + timerDelay (getConfig env.inputs).frameInterval
      omega
    · intro iv hiv
      simp only [hnil, List.nil_append, List.mem_singleton] at hiv
      rw [hiv]
      exact hslow

theorem SortedInv_stop (clock : Nat) (st : State) (inputs : ConfigInputs)
    (hinv : SortedInv clock st) : SortedInv clock (stopSimulation st inputs) := by
  obtain ⟨h1, h2, h3, ⟨T, hT, h4, h5⟩, h6, h7⟩ := hinv
  obtain ⟨_, q1, q2, q3, _⟩ := stopSimulation_frame st inputs
  have hsub := stopSimulation_intervals_subset st inputs
  unfold SortedInv sentFrameIds
  rw [q1, q2, q3]
  exact ⟨h1, h2, h3, ⟨T, hT, h4, fun iv hiv => h5 iv (hsub iv hiv)⟩,
    fun iv hiv => h6 iv (hsub iv hiv), TimerInv_stop st inputs h7⟩

theorem SortedInv_timeout (clock : Nat) (st : State) (i : Nat) (env : Env) (r : Draw)
    (hinv : SortedInv clock st) (hclock : clock ≤ env.now) :
    SortedInv env.now (fireTimeout st i env r) := by
  obtain ⟨h1, h2, h3, ⟨T, hT, h4, h5⟩, h6, h7⟩ := hinv
  cases hg : st.timeouts.get? i with
  | none =>
    rw [fireTimeout_none st i env r hg]
    exact ⟨h1, h2, h3, ⟨T, by omega, h4, h5⟩, h6, h7⟩
  | some tm =>
    have htinv := TimerInv_timeout st i env r h7
    obtain ⟨m, q1, q2, _, _, _, q6, q7, _, _, _, q11, _⟩ := fireTimeout_spec st i env r tm hg
    have htm : tm ∈ st.timeouts := List.get?_mem hg
    have hfid : m.frameId + 1 = st.frameId := by rw [q2]; exact h3 tm htm
    refine ⟨?_, ?_, ?_, ⟨T, by omega, ?_, ?_⟩, ?_, htinv⟩
    · rw [sentFrameIds_append st _ m q1]
      apply pairwise_le_concat _ _ h1
      intro a ha
      obtain ⟨x, hx, hxa⟩ := List.mem_map.1 ha
      have := h2 x hx
      omega
    · intro x hx
      rw [q1] at hx
      rw [q7]
      rcases List.mem_append.1 hx with hin | hin
      · exact h2 x hin
      · rw [List.mem_singleton.1 hin]; omega
    · intro x hx
      rw [q6] at hx
      rw [q7]
      exact h3 x (List.mem_of_mem_eraseIdx hx)
    · intro x hx
      rw [q6] at hx
      exact h4 x (List.mem_of_mem_eraseIdx hx)
    · rw [q11]; exact h5
    · rw [q11]; exact h6

theorem SortedInv_tick (clock : Nat) (st : State) (h : Nat) (env : Env)
    (draws : TickDraws) (hinv : SortedInv clock st) (hclock : clock ≤ env.now)
    (hdue : dueOrder st (Event.tick h env draws) = true) :
    SortedInv env.now (fireInterval st h env draws) := by
  obtain ⟨h1, h2, h3, ⟨T, hT, h4, h5⟩, h6, h7⟩ := hinv
  cases hf : st.intervals.find? (fun iv => iv.handle = h) with
  | none =>
    rw [fireInterval_none st h env draws hf]
    exact ⟨h1, h2, h3, ⟨T, by omega, h4, h5⟩, h6, h7⟩
  | some iv =>
    have htinv := TimerInv_tick st h env draws h7
    have hiv : iv ∈ st.intervals := List.mem_of_find?_eq_some hf
    have hivh : iv.handle = h := by
      have := List.find?_some hf
      simpa using this
    simp only [dueOrder, hf, Bool.and_eq_true, decide_eq_true_eq, List.all_eq_true] at hdue
    obtain ⟨⟨_, hd2⟩, _⟩ := hdue
    have hempty : ∀ tm ∈ st.timeouts, False := by
      intro tm htm
      have a1 := hd2 tm htm
      have a2 := h4 tm htm
      have a3 := h5 iv hiv
      omega
    have hall : ∀ o ∈ st.intervals, o.handle = h := by
      obtain ⟨t1, _, _, _⟩ := h7
      intro o ho
      have m1 : o.handle ∈ st.intervals.map (fun iv => iv.handle) :=
        List.mem_map_of_mem _ ho
      have m2 : iv.handle ∈ st.intervals.map (fun iv => iv.handle) :=
        List.mem_map_of_mem _ hiv
      rw [t1] at m1 m2
      cases hid : st.intervalId with
      | none => rw [hid] at m1; cases m1
      | some k =>
        rw [hid] at m1 m2
        simp only [Option.toList, List.mem_singleton] at m1 m2
        rw [m1, ← m2, hivh]
    rw [fireInterval_some st h env draws iv hf] at htinv ⊢
    obtain ⟨m, added, q1, _, q3, _, q5, q6, q7, q8, _, _, _, q12, _⟩ :=
      sendSingleFrame_spec st env draws
    have hadd := q6.2
    refine ⟨?_, ?_, ?_, ⟨env.now, Nat.le_refl _, ?_, ?_⟩, ?_, htinv⟩
    · show List.Pairwise _ (sentFrameIds (sendSingleFrame st env draws))
      rw [sentFrameIds_append st _ m q1]
      apply pairwise_le_concat _ _ h1
      intro a ha
      obtain ⟨x, hx, hxa⟩ := List.mem_map.1 ha
      have := h2 x hx
      omega
    · intro x hx
      show x.frameId < (sendSingleFrame st env draws).frameId
      rw [q8]
      have hx' : x ∈ st.sent ++ [m] := by rw [← q1]; exact hx
      rcases List.mem_append.1 hx' with hin | hin
      · have := h2 x hin
        omega
      · rw [List.mem_singleton.1 hin]; omega
    · intro x hx
      show x.action.frameId + 1 = (sendSingleFrame st env draws).frameId
      rw [q8]
      have hx' : x ∈ st.timeouts ++ added := by rw [← q5]; exact hx
      rcases List.mem_append.1 hx' with hin | hin
      · exact absurd hin (fun hh => hempty x hh)
      · rw [hadd x hin]
    · intro x hx
      have hx' : x ∈ st.timeouts ++ added := by rw [← q5]; exact hx
      rcases List.mem_append.1 hx' with hin | hin
      · exact absurd hin (fun hh => hempty x hh)
      · exact q7 x hin
    · intro o ho
      have ho' : o ∈ (sendSingleFrame st env draws).intervals.map (fun iv =>
          if iv.handle = h then { iv with nextDue := env.now + timerDelay iv.period }
          else iv) := ho
      rw [q12] at ho'
      obtain ⟨o0, ho0, heq⟩ := List.mem_map.1 ho'
      rw [if_pos (hall o0 ho0)] at heq
      rw [← heq]
      have := h6 o0 ho0
      show env.now + 17 ≤ env.now + timerDelay o0.period
      omega
    · intro o ho
      have ho' : o ∈ (sendSingleFrame st env draws).intervals.map (fun iv =>
          if iv.handle = h then { iv with nextDue := env.now + timerDelay iv.period }
          else iv) := ho
      rw [q12] at ho'
      obtain ⟨o0, ho0, heq⟩ := List.mem_map.1 ho'
      rw [if_pos (hall o0 ho0)] at heq
      rw [← heq]
      exact h6 o0 ho0

theorem SortedInv_run (events : List Event) :
    ∀ (clock : Nat) (st : State), SortedInv clock st →
      timedRun clock st events = true → startsAtLeast17 events = true →
      ∃ clock', SortedInv clock' (run st events) := by
  induction events with
  | nil => intro clock st h _ _; exact ⟨clock, h⟩
  | cons e rest ih =>
    intro clock st hinv ht hs
    simp only [timedRun, Bool.and_eq_true, decide_eq_true_eq] at ht
    obtain ⟨⟨hc, hd⟩, hrest⟩ := ht
    simp only [startsAtLeast17, List.all_cons, Bool.and_eq_true] at hs
    obtain ⟨hse, hsr⟩ := hs
    rw [run_cons]
    apply ih (e.now.getD clock) (step st e) _ hrest hsr
    cases e with
    | start env =>
      simp only [Event.now, Option.getD_some] at hc ⊢
      simp only [decide_eq_true_eq] at hse
      exact SortedInv_start clock st env hinv hc hse
    | stop inputs =>
      simp only [Event.now, Option.getD_none]
      exact SortedInv_stop clock st inputs hinv
    | clear =>
      simp only [Event.now, Option.getD_none]
      exact hinv
    | tick h env draws =>
      simp only [Event.now, Option.getD_some] at hc ⊢
      exact SortedInv_tick clock st h env draws hinv hc hd
    | timeout i env r =>
      simp only [Event.now, Option.getD_some] at hc ⊢
      exact SortedInv_timeout clock st i env r hinv hc

/-- The frame end can wait a full 16 ms: for the largest draw the sum
`12 + Math.random() * 4` is the double 16. With a frame interval of 16 ms the frame end
of a frame can then follow the start of the next one. -/
theorem endDelay_can_be_sixteen :
    endDelayMs largestDraw = 16 ∧
    timedRun 0 State.init sixteenIntervalRun = true ∧
    sentFrameIds (run State.init sixteenIntervalRun) = [1, 2, 1] := by
  decide

/-- C7, amended. In every run in which timers run in due order and every start reads a
frame interval of at least 17 ms (longer than the longest deferred delay, which is 16
ms), the frame ids
of the emitted messages never decrease along the emitted sequence. -/
theorem frameIds_sorted_when_interval_long (events : List Event)
    (htimed : timedRun 0 State.init events = true)
    (hslow : startsAtLeast17 events = true) :
    (sentFrameIds (run State.init events)).Pairwise (fun a b => a ≤ b) := by
  obtain ⟨clock, hinv⟩ := SortedInv_run events 0 State.init SortedInv_init htimed hslow
  exact hinv.1

/-- The amended C7 at a concrete run: the default interval of 500 ms. -/
theorem frameIds_sorted_when_interval_long_witness :
    timedRun 0 State.init defaultIntervalRun = true ∧
    startsAtLeast17 defaultIntervalRun = true ∧
    sentFrameIds (run State.init defaultIntervalRun) = [1, 1, 1, 2] ∧
    (sentFrameIds (run State.init defaultIntervalRun)).Pairwise (fun a b => a ≤ b) :=
  ⟨by decide, by decide, by decide,
    frameIds_sorted_when_interval_long defaultIntervalRun (by decide) (by decide)⟩

/-! ## Tick pacing: lemmas -/

theorem PeriodInv_step (p : JSNumber) (st : State) (e : Event) (hinv : PeriodInv p st)
    (he : e.isStop = false) : PeriodInv p (step st e) := by
  obtain ⟨h1, h2⟩ := hinv
  cases e with
  | start env =>
    show PeriodInv p (startSimulation st env)
    rw [startSimulation_running st env h1]
    exact ⟨h1, h2⟩
  | stop inputs => cases he
  | clear => exact ⟨h1, h2⟩
  | tick h env draws =>
    show PeriodInv p (fireInterval st h env draws)
    cases hf : st.intervals.find? (fun iv => iv.handle = h) with
    | none => rw [fireInterval_none st h env draws hf]; exact ⟨h1, h2⟩
    | some iv =>
      rw [fireInterval_some st h env draws iv hf]
      obtain ⟨m, added, _, _, _, _, _, _, _, _, _, q10, _, q12, _⟩ :=
        sendSingleFrame_spec st env draws
      refine ⟨?_, ?_⟩
      · show (sendSingleFrame st env draws).isRunning = true
        rw [q10]; exact h1
      · show List.map _ (List.map _ (sendSingleFrame st env draws).intervals) = [p]
        rw [rearm_periods, q12]
        exact h2
  | timeout i env r =>
    show PeriodInv p (fireTimeout st i env r)
    cases hg : st.timeouts.get? i with
    | none => rw [fireTimeout_none st i env r hg]; exact ⟨h1, h2⟩
    | some tm =>
      obtain ⟨m, _, _, _, _, _, _, _, _, q9, _, q11, _⟩ := fireTimeout_spec st i env r tm hg
      exact ⟨by rw [q9]; exact h1, by rw [q11]; exact h2⟩

theorem PeriodInv_run (p : JSNumber) (events : List Event) :
    ∀ st : State, PeriodInv p st → events.all (fun e => !e.isStop) = true →
      PeriodInv p (run st events) := by
  induction events with
  | nil => intro st h _; exact h
  | cons e rest ih =>
    intro st h hs
    simp only [List.all_cons, Bool.and_eq_true, Bool.not_eq_true'] at hs
    rw [run_cons]
    exact ih _ (PeriodInv_step p st e h hs.1) hs.2

theorem PeriodInv_start (st : State) (env : Env) (hinv : TimerInv st)
    (hr : st.isRunning = false) :
    PeriodInv (getConfig env.inputs).frameInterval (startSimulation st env) := by
  have hnil : st.intervals = [] := by
    obtain ⟨t1, t2, _, _⟩ := hinv
    rw [hr] at t2
    cases hid : st.intervalId with
    | none => rw [hid] at t1; simpa using t1
    | some k => rw [hid] at t2; cases t2
  rw [startSimulation_stopped st env hr]
  refine ⟨rfl, ?_⟩
  simp [hnil]

/-- C10, as stated, fails: the timer installed by a start that read a frame interval of
500 keeps the period 500 through a tick at which the configuration reads 100; the next
tick is due 500 ms after this one, not 100 ms. -/
theorem timer_period_not_reread :
    (getConfig (sampleEnv "100" "1" "8" 500).inputs).frameInterval = JSNumber.num 100 ∧
    (fireInterval (startSimulation State.init (sampleEnv "500" "1" "8" 0)) 1
        (sampleEnv "100" "1" "8" 500) sampleDraws).intervals =
      [{ handle := 1, period := JSNumber.num 500, nextDue := 1000 }] := by
  decide

/-- C10, amended. The period of the repeating timer is the frame interval that
`startSimulation` read when it installed the timer: after a start from a stopped state,
whatever events follow short of a stop (ticks, deferred emissions, clears, further start
calls) and whatever the configuration reads at them, the scheduler is running with that
one period, and every tick arms the timer again with that same period. -/
theorem timer_period_fixed_at_start (events later : List Event) (env : Env)
    (hstopped : (run State.init events).isRunning = false)
    (hnostop : later.all (fun e => !e.isStop) = true) :
    (run (startSimulation (run State.init events) env) later).isRunning = true ∧
    (run (startSimulation (run State.init events) env) later).intervals.map
        (fun iv => iv.period) = [(getConfig env.inputs).frameInterval] ∧
    (∀ (h : Nat) (env2 : Env) (draws : TickDraws),
      ∀ iv ∈ (fireInterval (run (startSimulation (run State.init events) env) later)
          h env2 draws).intervals,
        iv.period = (getConfig env.inputs).frameInterval ∧
        (iv.handle = h →
          iv.nextDue = env2.now + timerDelay (getConfig env.inputs).frameInterval)) := by
  have htinv := TimerInv_run events State.init TimerInv_init
  have hp := PeriodInv_run _ later _ (PeriodInv_start _ env htinv hstopped) hnostop
  generalize run (startSimulation (run State.init events) env) later = S at hp
  obtain ⟨h1, h2⟩ := hp
  have hper : ∀ iv ∈ S.intervals, iv.period = (getConfig env.inputs).frameInterval := by
    intro iv hiv
    have : iv.period ∈ S.intervals.map (fun iv => iv.period) := List.mem_map_of_mem _ hiv
    rw [h2] at this
    exact List.mem_singleton.1 this
  refine ⟨h1, h2, ?_⟩
  intro h env2 draws iv hiv
  cases hf : S.intervals.find? (fun iv => iv.handle = h) with
  | none =>
    rw [fireInterval_none S h env2 draws hf] at hiv
    refine ⟨hper iv hiv, ?_⟩
    intro hh
    have := List.find?_eq_none.1 hf iv hiv
    simp [hh] at this
  | some iv0 =>
    rw [fireInterval_some S h env2 draws iv0 hf] at hiv
    obtain ⟨m, added, _, _, _, _, _, _, _, _, _, _, _, q12, _⟩ :=
      sendSingleFrame_spec S env2 draws
    have hiv' : iv ∈ (sendSingleFrame S env2 draws).intervals.map (fun iv =>
        if iv.handle = h then { iv with nextDue := env2.now + timerDelay iv.period }
        else iv) := hiv
    rw [q12] at hiv'
    obtain ⟨o, ho, heq⟩ := List.mem_map.1 hiv'
    by_cases hoh : o.handle = h
    · rw [if_pos hoh] at heq
      rw [← heq]
      refine ⟨hper o ho, ?_⟩
      intro _
      show env2.now + timerDelay o.period = _
      rw [hper o ho]
    · rw [if_neg hoh] at heq
      rw [← heq]
      exact ⟨hper o ho, fun hh => absurd hh hoh⟩

/-- The amended C10 at a concrete run: a start that reads 500, then a tick at which the
input reads 100. -/
theorem timer_period_fixed_at_start_witness :
    (run State.init []).isRunning = false ∧
    [Event.tick 1 (sampleEnv "100" "1" "8" 500) sampleDraws].all
      (fun e => !e.isStop) = true ∧
    (run (startSimulation (run State.init []) (sampleEnv "500" "1" "8" 0))
      [Event.tick 1 (sampleEnv "100" "1" "8" 500) sampleDraws]).isRunning = true ∧
    (run (startSimulation (run State.init []) (sampleEnv "500" "1" "8" 0))
      [Event.tick 1 (sampleEnv "100" "1" "8" 500) sampleDraws]).intervals.map
        (fun iv => iv.period) = [(getConfig (sampleEnv "500" "1" "8" 0).inputs).frameInterval] :=
  ⟨by decide, by decide,
    (timer_period_fixed_at_start [] [Event.tick 1 (sampleEnv "100" "1" "8" 500) sampleDraws]
      (sampleEnv "500" "1" "8" 0) (by decide) (by decide)).1,
    (timer_period_fixed_at_start [] [Event.tick 1 (sampleEnv "100" "1" "8" 500) sampleDraws]
      (sampleEnv "500" "1" "8" 0) (by decide) (by decide)).2.1⟩

/-! ## Configuration provider: what `parseInt` reads -/

theorem leadingDigits_nondigit (c : Char) (cs : List Char)
    (h : c.toNat < 48 ∨ 57 < c.toNat) : leadingDigits 10 (c :: cs) = [] := by
  unfold leadingDigits digitValue
  simp only
  split_ifs <;> simp <;> omega

theorem splitSign_subset (cs : List Char) : ∀ c ∈ (splitSign cs).2, c ∈ cs := by
  cases cs with
  | nil => intro c hc; exact hc
  | cons a rest =>
    unfold splitSign
    simp only
    split_ifs
    · intro c hc; exact List.mem_cons_of_mem _ hc
    · intro c hc; exact List.mem_cons_of_mem _ hc
    · intro c hc; exact hc

theorem splitRadix_nondigit (cs : List Char)
    (h : ∀ c ∈ cs, c.toNat < 48 ∨ 57 < c.toNat) : splitRadix cs = (10, cs) := by
  match cs with
  | [] => rfl
  | [a] => rfl
  | a :: b :: rest =>
    unfold splitRadix
    simp only
    have ha := h a (List.mem_cons_self _ _)
    have hne : a ≠ '0' := by
      intro e
      rw [e] at ha
      revert ha
      decide
    simp [hne]

/-- A text without any decimal digit character parses to `NaN`. -/
theorem parseInt_nan_of_no_digit (s : String)
    (h : ∀ c ∈ s.toList, c.toNat < 48 ∨ 57 < c.toNat) : parseInt s = JSNumber.nan := by
  have h1 : ∀ c ∈ s.toList.dropWhile isStrWhiteSpaceChar, c.toNat < 48 ∨ 57 < c.toNat :=
    fun c hc => h c ((List.dropWhile_sublist _).subset hc)
  have h2 : ∀ c ∈ (splitSign (s.toList.dropWhile isStrWhiteSpaceChar)).2,
      c.toNat < 48 ∨ 57 < c.toNat :=
    fun c hc => h1 c (splitSign_subset _ c hc)
  have h3 := splitRadix_nondigit _ h2
  have h4 : (parseIntDigits s).2.2 = [] := by
    unfold parseIntDigits
    simp only [h3]
    cases hrest : (splitSign (s.toList.dropWhile isStrWhiteSpaceChar)).2 with
    | nil => rfl
    | cons a rest =>
      apply leadingDigits_nondigit
      apply h2
      rw [hrest]
      exact List.mem_cons_self _ _
  unfold parseInt
  simp only [h4, if_true]

theorem leadingDigits_all_digits (cs : List Char)
    (h : ∀ c ∈ cs, 48 ≤ c.toNat ∧ c.toNat ≤ 57) :
    leadingDigits 10 cs = cs.map (fun c => c.toNat - 48) := by
  induction cs with
  | nil => rfl
  | cons a rest ih =>
    have ha := h a (List.mem_cons_self _ _)
    have hrest := ih (fun c hc => h c (List.mem_cons_of_mem _ hc))
    have hv : digitValue a = some (a.toNat - 48) := by
      unfold digitValue
      simp only [ha.1, ha.2, and_self, if_true]
    have hlt : a.toNat - 48 < 10 := by omega
    simp only [leadingDigits, hv, hlt, if_true, hrest, List.map_cons]

theorem digitsToNat_map (cs : List Char) :
    digitsToNat 10 (cs.map (fun c => c.toNat - 48)) = decimalValue cs := by
  unfold digitsToNat decimalValue
  rw [List.foldl_map]
  congr 1
  funext a c
  omega

theorem toDouble_small (n : Nat) (h : n < 9007199254740992) : toDouble n = some n := by
  unfold toDouble
  simp only [h, if_true]

/-- The digits that `parseInt` reads in a text made of decimal digit characters only,
possibly after a minus sign. -/
theorem parseIntDigits_decimal (cs : List Char) (hne : cs ≠ [])
    (h : ∀ c ∈ cs, 48 ≤ c.toNat ∧ c.toNat ≤ 57) :
    parseIntDigits (String.mk cs) = (false, 10, cs.map (fun c => c.toNat - 48)) ∧
    parseIntDigits (String.mk ('-' :: cs)) = (true, 10, cs.map (fun c => c.toNat - 48)) := by
  obtain ⟨a, rest, rfl⟩ := List.exists_cons_of_ne_nil hne
  have ha := h a (List.mem_cons_self _ _)
  have hws : isStrWhiteSpaceChar a = false := by
    unfold isStrWhiteSpaceChar
    simp only [Bool.or_eq_false_iff, Bool.and_eq_false_iff, beq_eq_false_iff_ne,
      decide_eq_false_iff_not, ne_eq]
    omega
  have hminus : a ≠ '-' := by
    intro e; rw [e] at ha; revert ha; decide
  have hplus : a ≠ '+' := by
    intro e; rw [e] at ha; revert ha; decide
  have hsign : splitSign (a :: rest) = (false, a :: rest) := by
    unfold splitSign
    simp [hminus, hplus]
  have hradix : splitRadix (a :: rest) = (10, a :: rest) := by
    match rest, h with
    | [], _ => rfl
    | b :: more, h =>
      have hb := h b (List.mem_cons_of_mem _ (List.mem_cons_self _ _))
      have hx : b ≠ 'x' := by
        intro e; rw [e] at hb; revert hb; decide
      have hX : b ≠ 'X' := by
        intro e; rw [e] at hb; revert hb; decide
      unfold splitRadix
      simp [hx, hX]
  have hdrop : List.dropWhile isStrWhiteSpaceChar (a :: rest) = a :: rest := by
    simp [List.dropWhile, hws]
  have hdropm : List.dropWhile isStrWhiteSpaceChar ('-' :: a :: rest) = '-' :: a :: rest := by
    have : isStrWhiteSpaceChar '-' = false := by decide
    simp [List.dropWhile, this]
  have hsignm : splitSign ('-' :: a :: rest) = (true, a :: rest) := by
    unfold splitSign
    simp
  constructor
  · unfold parseIntDigits
    simp only [String.toList, hdrop, hsign, hradix, leadingDigits_all_digits _ h]
  · unfold parseIntDigits
    simp only [String.toList, hdropm, hsignm, hradix, leadingDigits_all_digits _ h]

/-- The decimal text of a natural number below `2 ^ 53` parses to that number, and to
its opposite after a minus sign. -/
theorem parseInt_toString (n : Nat) (h : n < 9007199254740992) :
    parseInt (toString n) = JSNumber.num (n : Int) ∧
    parseInt ("-" ++ toString n) = JSNumber.num (-(n : Int)) := by
  obtain ⟨hv, hne, hall⟩ := toDigits_decimal n
  obtain ⟨p1, p2⟩ := parseIntDigits_decimal (Nat.toDigits 10 n) hne hall
  have hmap : (Nat.toDigits 10 n).map (fun c => c.toNat - 48) ≠ [] := by
    simpa using hne
  have e1 : toString n = String.mk (Nat.toDigits 10 n) := rfl
  have e2 : "-" ++ toString n = String.mk ('-' :: Nat.toDigits 10 n) := by
    rw [e1]
    apply String.ext
    simp [String.data_append]
  constructor
  · rw [e1]
    unfold parseInt
    simp only [p1, hmap, if_false, digitsToNat_map, hv, toDouble_small n h]
    rfl
  · rw [e2]
    unfold parseInt
    simp only [p2, hmap, if_false, digitsToNat_map, hv, toDouble_small n h]
    rfl

set_option maxRecDepth 100000 in
/-- An integer that no double holds is read as the nearest double. -/
theorem parseInt_rounds_to_double :
    parseInt "9007199254740993" = JSNumber.num 9007199254740992 := by
  decide

set_option maxRecDepth 100000 in
/-- Beyond the largest double `toDouble` has no value, which `parseInt` turns into an
infinity. -/
theorem toDouble_overflow : toDouble (2 ^ 1024) = none := by
  decide

/-- C4, amended. `getConfig` is total; a field is the fixed default (500, 10, 50, 8) when
its input element is absent and `parseInt` of the text of the input when it is present,
never the default then: a text without any decimal digit, as the empty string or
non-numeric text, gives `NaN`; the decimal text of an integer of absolute value below
`2 ^ 53` gives that integer; digits are read up to the first other character, and a
longer integer is rounded to the nearest double. -/
theorem getConfig_fields (inputs : ConfigInputs) :
    (getConfig inputs).frameInterval =
      (match inputs.frameInterval with
       | none => JSNumber.num 500
       | some s => parseInt s) ∧
    (getConfig inputs).messagesPerFrame =
      (match inputs.messagesPerFrame with
       | none => JSNumber.num 10
       | some s => parseInt s) ∧
    (getConfig inputs).frameVariability =
      (match inputs.frameVariability with
       | none => JSNumber.num 50
       | some s => parseInt s) ∧
    (getConfig inputs).messageDiversity =
      (match inputs.messageDiversity with
       | none => JSNumber.num 8
       | some s => parseInt s) ∧
    (∀ s : String, (∀ c ∈ s.toList, c.toNat < 48 ∨ 57 < c.toNat) →
      parseInt s = JSNumber.nan) ∧
    (∀ n : Nat, n < 9007199254740992 →
      parseInt (toString n) = JSNumber.num (n : Int) ∧
      parseInt ("-" ++ toString n) = JSNumber.num (-(n : Int))) ∧
    parseInt "" = JSNumber.nan ∧
    parseInt "abc" = JSNumber.nan ∧
    parseInt "12px" = JSNumber.num 12 ∧
    parseInt "9007199254740993" = JSNumber.num 9007199254740992 := by
  refine ⟨?_, ?_, ?_, ?_, parseInt_nan_of_no_digit, parseInt_toString,
    by decide, by decide, by decide, parseInt_rounds_to_double⟩
  · cases h : inputs.frameInterval with
    | none => simp only [getConfig, h, Option.getD_none]; decide
    | some s => simp only [getConfig, h, Option.getD_some]
  · cases h : inputs.messagesPerFrame with
    | none => simp only [getConfig, h, Option.getD_none]; decide
    | some s => simp only [getConfig, h, Option.getD_some]
  · cases h : inputs.frameVariability with
    | none => simp only [getConfig, h, Option.getD_none]; decide
    | some s => simp only [getConfig, h, Option.getD_some]
  · cases h : inputs.messageDiversity with
    | none => simp only [getConfig, h, Option.getD_none]; decide
    | some s => simp only [getConfig, h, Option.getD_some]

end CanvasSim
